import Mathlib

/-!
Verification development for the meridian publish-queue / index-synchronization
engine (modules jasper.py, jasper_arweave.py, jasper_atproto.py).

Modelling conventions (shallow embedding):
* JSON values are modelled by the inductive `Json` below.  Python's
  `json.dump` / `json.loads` pair is the identity on such values, so the
  on-disk content of a parseable file is modelled directly by the `Json`
  value it parses to; a file whose text does not parse (for the variant's
  parsing pipeline) is modelled by the marker `FileText.bad`.  The textual
  level (trailing-comma sanitization, `json.loads` strictness) is modelled
  separately by an executable character-level parser `parseJson` and the
  sanitizer `sanitizeTrailingCommas`, used for the claims that are about
  file text.
* Python dicts are association lists with unique keys in insertion order;
  `assocGet` models `d.get(k)` / `k in d`, `assocSet` models `d[k] = v`
  (replace in place, append when new).
* The filesystem is a map from path strings to optional file contents.
  Effectful code (shutil.copy2, open/json.dump, os.replace) is modelled by
  explicit state passing plus a small oracle recording which of the calls
  raise; every intermediate filesystem state is recorded in a trace so that
  atomicity statements can be expressed.  Directory creation (`mkdir`) does
  not change file contents and is assumed to succeed.
* Subprocess invocations (`arkb`, `bsky`) are opaque: an oracle value of
  type `ProcResult` gives the outcome of each spawned process
  (FileNotFoundError, or exit code with captured stdout/stderr).  Events
  (`Ev`) record UI notification-callback invocations and the points where a
  publishing subprocess is actually spawned.
* Python floats are abstracted by rationals in the balance probe: no float
  arithmetic is performed by the code, only `float()` conversion of a
  matched decimal numeral, whose value we keep exactly.
-/

namespace Meridian

/-- JSON values, as produced by Python's `json.loads`.  Objects keep their
keys in insertion order; parsed objects have unique keys (Python dicts). -/
inductive Json where
  | null : Json
  | bool (b : Bool) : Json
  | num (n : Int) : Json
  | str (s : String) : Json
  | arr (elems : List Json) : Json
  | obj (fields : List (String × Json)) : Json

/-- Model of `d.get(k)` on a Python dict modelled as an association list. -/
def assocGet {β : Type} : List (String × β) → String → Option β
  | [], _ => none
  | (k2, v) :: rest, k => if k2 = k then some v else assocGet rest k

/-- Model of `d[k] = v` on a Python dict: replace the value in place when the key
exists, append the pair at the end otherwise. -/
def assocSet {β : Type} : List (String × β) → String → β → List (String × β)
  | [], k, v => [(k, v)]
  | (k2, v2) :: rest, k, v =>
      if k2 = k then (k2, v) :: rest else (k2, v2) :: assocSet rest k v

/-- Model of `item.get(k)` where `item` is an arbitrary JSON value: `none` models the
`AttributeError` raised when `item` is not a dict, `some r` the `.get`
result (`r = none` for a missing key). -/
def dictGet (j : Json) (k : String) : Option (Option Json) :=
  match j with
  | .obj fields => some (assocGet fields k)
  | _ => none

/-- Python `==` between a JSON value (or `None`) and a string: true exactly
for an equal string. -/
def eqStr (v : Option Json) (u : String) : Bool :=
  match v with
  | some (.str s) => s = u
  | _ => false

/-- Python `len` on a JSON value: defined for strings, lists and dicts;
`none` models the `TypeError` raised otherwise. -/
def pyLen (j : Json) : Option Nat :=
  match j with
  | .str s => some s.length
  | .arr xs => some xs.length
  | .obj fields => some fields.length
  | _ => none

/-- Python truthiness of a JSON value (`None`, `False`, `0`, `""`, `[]`,
`\x7b\x7d` are falsy). -/
def pyTruthy (j : Json) : Bool :=
  match j with
  | .null => false
  | .bool b => b
  | .num n => n ≠ 0
  | .str s => s ≠ ""
  | .arr xs => ¬ xs.isEmpty
  | .obj fields => ¬ fields.isEmpty

/-- Contents of a file on disk: a JSON value when the file's text parses
through the owning module's parsing pipeline, `bad` when it does not
(including partially written text). -/
inductive FileText where
  | ok (j : Json) : FileText
  | bad : FileText

/-- The filesystem: path → file contents (`none` = absent). -/
def FS : Type := String → Option FileText

/-- Write (or overwrite) one file. -/
def setFile (fs : FS) (p : String) (c : FileText) : FS :=
  fun q => if q = p then some c else fs q

/-- Remove one file. -/
def delFile (fs : FS) (p : String) : FS :=
  fun q => if q = p then none else fs q

/-- The directory part and name part of a path (split at the last slash). -/
def splitPath (p : String) : String × String :=
  let cs := p.toList
  let rname := (cs.reverse.takeWhile (fun c => c ≠ '/')).reverse
  let dir := cs.take (cs.length - rname.length)
  (String.mk dir, String.mk rname)

/-- Drop the extension of a file name: remove the last dot and what follows,
unless the only dot is the leading character (pathlib's notion of suffix). -/
def dropExtName (name : String) : String :=
  let cs := name.toList
  let rext := cs.reverse.takeWhile (fun c => c ≠ '.')
  if rext.length = cs.length then name
  else
    let stemLen := cs.length - rext.length - 1
    if stemLen = 0 then name else String.mk (cs.take stemLen)

/-- Model of `pathlib.Path.with_suffix`: replace the name's extension by `suf`. -/
def withSuffix (p suf : String) : String :=
  let (dir, name) := splitPath p
  dir ++ dropExtName name ++ suf

/-- The backup sibling used by the Arweave index store
(`index_file.with_suffix(".json.bak")`). -/
def bakPath (p : String) : String := withSuffix p ".json.bak"

/-- The temporary sibling used by the Arweave index store
(`index_file.with_suffix(".tmp")`). -/
def tmpPath (p : String) : String := withSuffix p ".tmp"

/-- Extract `data[k]` as the record list, mirroring the shape checks of the
two loaders: not a dict, missing key, or non-list value all degrade to the
empty list. -/
def extractKeyList (j : Json) (k : String) : List Json :=
  match j with
  | .obj fields =>
      match assocGet fields k with
      | some (.arr xs) => xs
      | some _ => []
      | none => []
  | _ => []

/-- Model of `load_arweave_index` (jasper_arweave.py, lines 43-74): absent file,
unparseable text (modelled by `FileText.bad`, parse attempted after
trailing-comma sanitization) and wrongly shaped data all return `[]`;
otherwise the `"files"` list is returned. -/
def load_arweave_index (fs : FS) (p : String) : List Json :=
  match fs p with
  | none => []
  | some .bad => []
  | some (.ok j) => extractKeyList j "files"

/-- Model of `load_atproto_posts_index` (jasper_atproto.py, lines 109-137): same
degradation discipline with the `"posts"` key; the raw text is parsed with
no sanitization. -/
def load_atproto_posts_index (fs : FS) (p : String) : List Json :=
  match fs p with
  | none => []
  | some .bad => []
  | some (.ok j) => extractKeyList j "posts"

/-- Which of the effectful calls inside `save_arweave_index` raise. -/
structure SaveOracle where
  backupThrows : Bool
  writeThrows : Bool
  replaceThrows : Bool
  restoreThrows : Bool

/-- The top-level JSON object written by the Arweave index store. -/
def arwContent (rs : List Json) : Json := .obj [("files", .arr rs)]

/-- The top-level JSON object written by the AT Protocol index store. -/
def atpContent (rs : List Json) : Json := .obj [("posts", .arr rs)]

/-- The backup-restore step of `save_arweave_index`'s exception handler:
copy the `.bak` sibling over the destination when it exists (best effort). -/
def restoreStep (fs : FS) (p : String) (o : SaveOracle) : FS :=
  match fs (bakPath p) with
  | some c => if o.restoreThrows then fs else setFile fs p c
  | none => fs

/-- The backup step of `save_arweave_index` (jasper_arweave.py, lines
86-93): `shutil.copy2` of an existing destination to the `.bak` sibling,
with its exception caught and only logged. -/
def arwBackupFS (fs : FS) (p : String) (o : SaveOracle) : FS :=
  match fs p with
  | some c => if o.backupThrows then fs else setFile fs (bakPath p) c
  | none => fs

/-- Model of `save_arweave_index` (jasper_arweave.py, lines 77-117).  Returns the
final filesystem, the success flag, and the trace of every intermediate
filesystem state (a partially written temporary file appears as
`FileText.bad`; `os.replace` is one atomic step).  Backup failure is
caught and ignored; on a write or replace exception the destination is
restored from the `.bak` sibling and `false` is returned. -/
def save_arweave_index (fs : FS) (rs : List Json) (p : String) (o : SaveOracle) :
    FS × Bool × List FS :=
  let content := arwContent rs
  let fs1 := arwBackupFS fs p o
  if o.writeThrows then
    -- json.dump raised mid-write: the temporary file is left partial
    let fs2 := setFile fs1 (tmpPath p) .bad
    let fs3 := restoreStep fs2 p o
    (fs3, false, [fs, fs1, fs2, fs3])
  else
    let fs2a := setFile fs1 (tmpPath p) .bad        -- mid-write state
    let fs2 := setFile fs2a (tmpPath p) (.ok content)
    if o.replaceThrows then
      let fs3 := restoreStep fs2 p o
      (fs3, false, [fs, fs1, fs2a, fs2, fs3])
    else
      let fs3 := setFile (delFile fs2 (tmpPath p)) p (.ok content)
      (fs3, true, [fs, fs1, fs2a, fs2, fs3])

/-- Model of `save_atproto_posts_index` (jasper_atproto.py, lines 140-154): opens the
destination with mode `"w"` (truncating it) and writes in place — no backup
sibling, no temporary file, no atomic rename, no restore.  On a write
exception the destination is left partial and `false` is returned. -/
def save_atproto_posts_index (fs : FS) (rs : List Json) (p : String)
    (writeThrows : Bool) : FS × Bool × List FS :=
  let fsT := setFile fs p .bad                       -- truncated / mid-write
  if writeThrows then (fsT, false, [fs, fsT])
  else
    let fs2 := setFile fsT p (.ok (atpContent rs))
    (fs2, true, [fs, fsT, fs2])

/-- The per-item loop body of `get_arweave_status` (jasper_arweave.py,
lines 135-145).  `none` models an uncaught exception (`.get` on a non-dict
item, `len` of an unsized value). -/
def arweaveStatusLoop (uuidValue : String) : List Json → Option String
  | [] => some "Not uploaded"
  | item :: rest =>
    match dictGet item "uuid" with
    | none => none
    | some v =>
      if eqStr v uuidValue then
        match dictGet item "arweave_hashes" with
        | none => none
        | some hv =>
          match pyLen (hv.getD (.arr [])) with
          | none => none
          | some 0 => some "Tracked in archive, but no uploads recorded"
          | some n =>
              some ("Uploaded (" ++ toString n ++ " version"
                ++ (if n = 1 then "" else "s") ++ ")")
      else arweaveStatusLoop uuidValue rest

/-- Model of `get_arweave_status` (jasper_arweave.py, lines 120-145), given an
explicit snapshot (the `index_data is None` reload branch is outside the
pure fragment the claims quantify over). -/
def get_arweave_status (uuidValue : String) (indexData : List Json) :
    Option String :=
  if uuidValue = "N/A" ∨ uuidValue = "" then some "No UUID found"
  else if indexData.isEmpty then
    some "Not uploaded (archive not found or empty)"
  else arweaveStatusLoop uuidValue indexData

/-- The per-item loop body of `get_atproto_status` (jasper_atproto.py,
lines 168-172). -/
def atprotoStatusLoop (uuidValue : String) : List Json → Option String
  | [] => some "Not posted"
  | item :: rest =>
    match dictGet item "uuid" with
    | none => none
    | some v =>
      if eqStr v uuidValue then
        match dictGet item "url" with
        | none => none
        | some uv => some (if pyTruthy (uv.getD .null) then "Posted" else "Draft")
      else atprotoStatusLoop uuidValue rest

/-- Model of `get_atproto_status` (jasper_atproto.py, lines 157-172), given an
explicit snapshot. -/
def get_atproto_status (uuidValue : String) (indexData : List Json) :
    Option String :=
  if uuidValue = "N/A" ∨ uuidValue = "" then some "No UUID found"
  else if indexData.isEmpty then
    some "Not posted (index not found or empty)"
  else atprotoStatusLoop uuidValue indexData

/-- Does a JSON item carry `"uuid"` equal (as a Python string compare) to
`u`?  False for non-dict items. -/
def matchesUuid (u : String) (j : Json) : Bool :=
  match j with
  | .obj fields => eqStr (assocGet fields "uuid") u
  | _ => false

/-- One Arweave history entry as built by the orchestrator
(jasper_arweave.py, lines 448-452). -/
def mkArweaveEntry (txid ts : String) : Json :=
  .obj [("hash", .str txid), ("timestamp", .str ts),
        ("link", .str ("https://www.arweave.net/" ++ txid))]

/-- The matched-record mutation of the Arweave find-or-append block
(jasper_arweave.py, lines 456-464): repair `"arweave_hashes"` to `[]` when
missing or not a list, append the new entry, refresh the title. -/
def arwUpdateItem (fields : List (String × Json)) (title : String)
    (entry : Json) : List (String × Json) :=
  let h :=
    match assocGet fields "arweave_hashes" with
    | some (.arr xs) => xs
    | _ => []
  let fields1 := assocSet fields "arweave_hashes" (.arr (h ++ [entry]))
  assocSet fields1 "title" (.str title)

/-- The fresh record appended by the Arweave find-or-append block
(jasper_arweave.py, lines 467-473). -/
def arwNewItem (uuid title : String) (entry : Json) : Json :=
  .obj [("uuid", .str uuid), ("title", .str title),
        ("arweave_hashes", .arr [entry])]

/-- The Arweave find-or-append block (jasper_arweave.py, lines 454-474):
scan for the first record whose `"uuid"` equals the identifier, mutate it
in place and stop; append a fresh record when none matches.  `none` models
the `AttributeError` raised by `.get` on a non-dict item (caught by the
orchestrator's per-file handler before any mutation happens). -/
def updateArweaveIndex (index : List Json) (uuid title : String)
    (entry : Json) : Option (List Json) :=
  match index with
  | [] => some [arwNewItem uuid title entry]
  | item :: rest =>
    match item with
    | .obj fields =>
      if eqStr (assocGet fields "uuid") uuid then
        some (.obj (arwUpdateItem fields title entry) :: rest)
      else
        (updateArweaveIndex rest uuid title entry).map (item :: ·)
    | _ => none

/-- The matched-record mutation of the AT Protocol find-or-append block
(jasper_atproto.py, lines 477-486): overwrite url, title and posted_at in
place. -/
def atpUpdateItem (fields : List (String × Json)) (title url ts : String) :
    List (String × Json) :=
  assocSet (assocSet (assocSet fields "url" (.str url))
    "title" (.str title)) "posted_at" (.str ts)

/-- The fresh record appended by the AT Protocol find-or-append block
(jasper_atproto.py, lines 488-496). -/
def atpNewItem (uuid title url ts : String) : Json :=
  .obj [("uuid", .str uuid), ("title", .str title),
        ("url", .str url), ("posted_at", .str ts)]

/-- The AT Protocol find-or-append block (jasper_atproto.py, lines
476-496). -/
def updateAtprotoIndex (index : List Json) (uuid title url ts : String) :
    Option (List Json) :=
  match index with
  | [] => some [atpNewItem uuid title url ts]
  | item :: rest =>
    match item with
    | .obj fields =>
      if eqStr (assocGet fields "uuid") uuid then
        some (.obj (atpUpdateItem fields title url ts) :: rest)
      else
        (updateAtprotoIndex rest uuid title url ts).map (item :: ·)
    | _ => none

/-- Model of `ContentTree.toggle_directory_selection` (jasper.py, lines 142-171),
restricted to its effect on the selection set `queued_files`: with the
subtree's file references `files`, do nothing when there are none; remove
them all when all are currently selected; add them all otherwise. -/
def toggle_directory_selection {α : Type} [DecidableEq α]
    (queued : Finset α) (files : List α) : Finset α :=
  if files.isEmpty then queued
  else if files.all (· ∈ queued) then queued \ files.toFinset
  else queued ∪ files.toFinset

/-- Python's regex whitespace class. -/
def isPyWs (c : Char) : Bool :=
  c = ' ' ∨ c = '\t' ∨ c = '\n' ∨ c = '\r' ∨ c = '\x0b' ∨ c = '\x0c'

/-- Python's `str.strip()`: drop leading and trailing whitespace. -/
def pyStrip (s : String) : String :=
  String.mk (((s.toList.dropWhile isPyWs).reverse.dropWhile isPyWs).reverse)

/-- A single left-to-right, non-overlapping pass of
`re.sub(r",\s*C", "C", s)` for a closing character `C`, as performed by the
Arweave loader's trailing-comma repair. -/
def subCCFuel (close : Char) : Nat → List Char → List Char
  | _, [] => []
  | 0, cs => cs
  | fuel + 1, c :: cs =>
    if c = ',' ∧ (cs.dropWhile isPyWs).head? = some close then
      close :: subCCFuel close fuel (cs.dropWhile isPyWs).tail
    else c :: subCCFuel close fuel cs

/-- Entry point of the single substitution pass: a step consumes at least
one character, so the input's length is enough fuel. -/
def subCommaClose (close : Char) (cs : List Char) : List Char :=
  subCCFuel close cs.length cs

/-- The trailing-comma sanitization of `load_arweave_index`
(jasper_arweave.py, lines 55-56): first `re.sub(r",\s*\x7d", "\x7d", s)`,
then `re.sub(r",\s*]", "]", s)` on the result. -/
def sanitizeTrailingCommas (s : String) : String :=
  String.mk (subCommaClose ']' (subCommaClose '}' s.toList))

/-- JSON whitespace accepted between tokens by `json.loads`. -/
def isJsonWs (c : Char) : Bool :=
  c = ' ' ∨ c = '\t' ∨ c = '\n' ∨ c = '\r'

/-- The body of a JSON string literal, after the opening quote.  Returns the
decoded characters and the input after the closing quote.  `\uXXXX` escapes
and unescaped control characters are out of the modelled fragment. -/
def parseStrChars : List Char → Option (List Char × List Char)
  | [] => none
  | '"' :: rest => some ([], rest)
  | '\\' :: e :: rest =>
    let dec : Option Char :=
      if e = '"' then some '"'
      else if e = '\\' then some '\\'
      else if e = '/' then some '/'
      else if e = 'n' then some '\n'
      else if e = 't' then some '\t'
      else if e = 'r' then some '\r'
      else if e = 'b' then some '\x08'
      else if e = 'f' then some '\x0c'
      else none
    match dec with
    | some c => (parseStrChars rest).map (fun r => (c :: r.1, r.2))
    | none => none
  | c :: rest =>
    if c.toNat < 32 then none
    else (parseStrChars rest).map (fun r => (c :: r.1, r.2))

/-- A JSON integer numeral (strict: no leading zeros, fractions and
exponents are out of the modelled fragment). -/
def parseNatNum (cs : List Char) : Option (Nat × List Char) :=
  let digits := cs.takeWhile Char.isDigit
  let rest := cs.dropWhile Char.isDigit
  if digits.isEmpty then none
  else if digits.head? = some '0' ∧ digits.length > 1 then none
  else
    match rest with
    | '.' :: _ => none
    | 'e' :: _ => none
    | 'E' :: _ => none
    | _ => some (digits.foldl (fun acc c => acc * 10 + (c.toNat - 48)) 0, rest)

mutual

/-- Recursive-descent model of `json.loads` on one value (fuelled). -/
def parseVal : Nat → List Char → Option (Json × List Char)
  | 0, _ => none
  | fuel + 1, cs =>
    match cs.dropWhile isJsonWs with
    | '{' :: rest =>
      (match rest.dropWhile isJsonWs with
       | '}' :: rest2 => some (.obj [], rest2)
       | rest2 =>
         match parseMembers fuel rest2 with
         | some (pairs, rest3) =>
             some (.obj (pairs.foldl (fun acc kv => assocSet acc kv.1 kv.2) []),
                   rest3)
         | none => none)
    | '[' :: rest =>
      (match rest.dropWhile isJsonWs with
       | ']' :: rest2 => some (.arr [], rest2)
       | rest2 =>
         match parseElems fuel rest2 with
         | some (elems, rest3) => some (.arr elems, rest3)
         | none => none)
    | '"' :: rest =>
      (parseStrChars rest).map (fun r => (.str (String.mk r.1), r.2))
    | 't' :: 'r' :: 'u' :: 'e' :: rest => some (.bool true, rest)
    | 'f' :: 'a' :: 'l' :: 's' :: 'e' :: rest => some (.bool false, rest)
    | 'n' :: 'u' :: 'l' :: 'l' :: rest => some (.null, rest)
    | '-' :: rest =>
      (parseNatNum rest).map (fun r => (.num (-(r.1 : Int)), r.2))
    | c :: rest =>
      if c.isDigit then
        (parseNatNum (c :: rest)).map (fun r => (.num (r.1 : Int), r.2))
      else none
    | [] => none

/-- The elements of a non-empty JSON array; a comma must be followed by a
further element (so a trailing comma fails, as in `json.loads`). -/
def parseElems : Nat → List Char → Option (List Json × List Char)
  | 0, _ => none
  | fuel + 1, cs =>
    match parseVal fuel cs with
    | some (j, rest) =>
      (match rest.dropWhile isJsonWs with
       | ',' :: rest2 =>
         (parseElems fuel rest2).map (fun r => (j :: r.1, r.2))
       | ']' :: rest2 => some ([j], rest2)
       | _ => none)
    | none => none

/-- The members of a non-empty JSON object; a comma must be followed by a
further `"key": value` pair (so a trailing comma fails). -/
def parseMembers : Nat → List Char → Option (List (String × Json) × List Char)
  | 0, _ => none
  | fuel + 1, cs =>
    match cs with
    | '"' :: rest =>
      (match parseStrChars rest with
       | some (key, rest2) =>
         (match rest2.dropWhile isJsonWs with
          | ':' :: rest3 =>
            (match parseVal fuel rest3 with
             | some (v, rest4) =>
               (match rest4.dropWhile isJsonWs with
                | ',' :: rest5 =>
                  (parseMembers fuel (rest5.dropWhile isJsonWs)).map
                    (fun r => ((String.mk key, v) :: r.1, r.2))
                | '}' :: rest5 => some ([(String.mk key, v)], rest5)
                | _ => none)
             | none => none)
          | _ => none)
       | none => none)
    | _ => none

end

/-- Model of `json.loads` on a whole document: one value plus trailing whitespace. -/
def parseJson (s : String) : Option Json :=
  match parseVal (2 * s.length + 4) s.toList with
  | some (j, rest) => if (rest.dropWhile isJsonWs).isEmpty then some j else none
  | none => none

/-- The parse-and-shape part of `load_arweave_index` applied to a file's
text (jasper_arweave.py, lines 52-74): sanitize trailing commas, parse,
check the `\x7bfiles: [...]\x7d` shape; any parse error is caught and
degrades to `[]`. -/
def loadArweaveFromText (s : String) : List Json :=
  match parseJson (sanitizeTrailingCommas s) with
  | none => []
  | some j => extractKeyList j "files"

/-- The parse-and-shape part of `load_atproto_posts_index` applied to a
file's text (jasper_atproto.py, lines 119-137): the raw text is handed to
`json.load` with no sanitization. -/
def loadAtprotoFromText (s : String) : List Json :=
  match parseJson s with
  | none => []
  | some j => extractKeyList j "posts"

/-- Outcome of one spawned subprocess: the executable was absent
(`FileNotFoundError`), or it ran to completion with an exit code and
captured stdout/stderr. -/
inductive ProcResult where
  | notFound : ProcResult
  | done (code : Int) (stdout stderr : String) : ProcResult

/-- The character class `[a-zA-Z0-9_-]` of an Arweave transaction id. -/
def isTxChar (c : Char) : Bool := c.isAlphanum ∨ c = '_' ∨ c = '-'

/-- The regex word-character class `[a-zA-Z0-9_]`. -/
def isWordChar (c : Char) : Bool := c.isAlphanum ∨ c = '_'

/-- A word boundary between an optional left character and an optional
right character (out-of-string counts as non-word). -/
def wordBoundary (l r : Option Char) : Bool :=
  (match l with | none => false | some c => isWordChar c)
    ≠ (match r with | none => false | some c => isWordChar c)

/-- Attempt the pattern `https://arweave\.net/([a-zA-Z0-9_-]\x7b43\x7d)` at
the start of the input. -/
def matchArweaveUrlAt (cs : List Char) : Option String :=
  let lit := "https://arweave.net/".toList
  if cs.take lit.length = lit then
    let blk := (cs.drop lit.length).take 43
    if blk.length = 43 ∧ blk.all isTxChar then some (String.mk blk) else none
  else none

/-- Model of `re.search` of the Arweave URL pattern: leftmost match. -/
def searchArweaveUrl : List Char → Option String
  | [] => none
  | c :: rest =>
    match matchArweaveUrlAt (c :: rest) with
    | some t => some t
    | none => searchArweaveUrl rest

/-- Model of `re.findall(r"\b([a-zA-Z0-9_-]\x7b43\x7d)\b", s)`: all non-overlapping
matches, scanning left to right, tracking the previous character for the
word-boundary tests. -/
def findAll43From (prev : Option Char) : List Char → List String
  | [] => []
  | c :: rest =>
    let blk := (c :: rest).take 43
    if blk.length = 43 ∧ blk.all isTxChar ∧ wordBoundary prev (some c)
        ∧ wordBoundary blk.getLast? ((c :: rest).get? 43) then
      String.mk blk :: findAll43From blk.getLast? ((c :: rest).drop 43)
    else findAll43From (some c) rest
termination_by cs => cs.length
decreasing_by
  · simp only [List.drop_succ_cons, List.length_drop, List.length_cons]
    omega
  · simp [List.length_cons]

/-- The transaction-id extraction of `_execute_arkb_deploy`
(jasper_arweave.py, lines 301-320): prefer the full URL pattern, fall back
to the last bare 43-character token, else fail. -/
def parseArweaveTxId (stdout : String) : Option String :=
  match searchArweaveUrl stdout.toList with
  | some t => some t
  | none => (findAll43From none stdout.toList).getLast?

/-- Model of `_execute_arkb_deploy` (jasper_arweave.py, lines 254-333) given the
subprocess outcome: a missing `arkb` executable and a non-zero exit both
yield `none`, a zero exit yields the extracted transaction id (or `none`
when no id can be extracted). -/
def execArkbDeploy (res : ProcResult) : Option String :=
  match res with
  | .notFound => none
  | .done code out _ => if code ≠ 0 then none else parseArweaveTxId out

/-- UI / subprocess events emitted while a batch runs: notification-callback
invocations and the spawning of an actual publishing subprocess. -/
inductive Ev where
  | notify (msg : String) : Ev
  | deployArkb (file : String) : Ev
  | bskyPost (file : String) : Ev
deriving DecidableEq

/-- Model of `upload_to_arweave` (jasper_arweave.py, lines 336-363) with
`TEST_MODE = False`: no wallet means no subprocess is spawned; otherwise
the `arkb deploy` subprocess runs (recorded as a `deployArkb` event). -/
def upload_to_arweave (name : String) (wallet : Option String)
    (res : ProcResult) : Option String × List Ev :=
  match wallet with
  | none => (none, [])
  | some _ => (execArkbDeploy res, [.deployArkb name])

/-- A file queued for Arweave upload, with its frontmatter metadata
(`str(post.get("uuid", ""))`, `str(post.get("title", "Untitled"))`,
`str(post.get("type", ""))`). -/
structure ArwFile where
  name : String
  uuid : String
  title : String
  ftype : String

/-- Environment of one Arweave batch: the resolved wallet path, the
subprocess outcome for each file's deploy, the oracle for each successive
index save, and the timestamp taken for each file. -/
structure ArwEnv where
  wallet : Option String
  deploy : ArwFile → ProcResult
  save : Nat → SaveOracle
  ts : ArwFile → String

/-- Mutable state threaded through the Arweave batch loop. -/
structure ArwState where
  results : List (String × Option String)
  index : List Json
  fs : FS
  saveCount : Nat
  events : List Ev

/-- One iteration of the `upload_files_to_arweave` loop
(jasper_arweave.py, lines 408-490). -/
def arwProcessFile (env : ArwEnv) (p : String) (st : ArwState)
    (f : ArwFile) : ArwState :=
  let st := { st with results := assocSet st.results f.name none }
  if f.uuid = "" then
    { st with events := st.events
        ++ [.notify ("Skipping " ++ f.name ++ ": No UUID found in frontmatter.")] }
  else
    let r := upload_to_arweave f.name env.wallet (env.deploy f)
    let st := { st with events := st.events ++ r.2 }
    match r.1 with
    | none =>
      { st with events := st.events
          ++ [.notify ("Failed to upload " ++ f.name ++ " to Arweave.")] }
    | some tx =>
      let st := { st with results := assocSet st.results f.name (some tx) }
      let entry := mkArweaveEntry tx (env.ts f)
      match updateArweaveIndex st.index f.uuid f.title entry with
      | none =>
        -- AttributeError inside the find-or-append scan, caught per file
        { st with events := st.events ++ [.notify ("Error uploading " ++ f.name)] }
      | some newIndex =>
        let sv := save_arweave_index st.fs newIndex p (env.save st.saveCount)
        let st := { st with index := newIndex, fs := sv.1,
                            saveCount := st.saveCount + 1 }
        let st :=
          if sv.2.1 then st
          else { st with events := st.events
              ++ [.notify ("Critical: Failed to save updated Arweave index after uploading "
                    ++ f.name ++ "!")] }
        { st with events := st.events
            ++ [.notify ("Uploaded " ++ f.name ++ ": " ++ tx.take 10 ++ "...")] }

/-- Python truthiness of one result slot (`if txid`). -/
def truthyResult (r : Option String) : Bool :=
  match r with
  | some s => s ≠ ""
  | none => false

/-- Model of `upload_files_to_arweave` (jasper_arweave.py, lines 369-502) with
`TEST_MODE = False`: empty batch → nothing; missing wallet → one error
notification and an all-`none` result map; otherwise load the index once
and process the files sequentially, ending with a summary notification. -/
def upload_files_to_arweave (env : ArwEnv) (files : List ArwFile) (fs0 : FS)
    (p : String) : List (String × Option String) × FS × List Ev :=
  if files.isEmpty then ([], fs0, [])
  else
    match env.wallet with
    | none =>
      (files.map (fun f => (f.name, (none : Option String))), fs0,
       [.notify "Arweave upload cannot proceed: Wallet path not found."])
    | some _ =>
      let st0 : ArwState :=
        { results := [], index := load_arweave_index fs0 p, fs := fs0,
          saveCount := 0,
          events := [.notify ("Starting Arweave upload for "
            ++ toString files.length ++ " files...")] }
      let stF := files.foldl (arwProcessFile env p) st0
      let succ := (stF.results.filter (fun r => truthyResult r.2)).length
      let fail := files.length - succ
      (stF.results, stF.fs,
       stF.events ++ [.notify ("Arweave upload finished: " ++ toString succ
         ++ " succeeded, " ++ toString fail ++ " failed.")])

/-- The installation guide returned by `check_bsky_cli_installed` when the
`bsky` executable is absent (jasper_atproto.py, lines 580-587). -/
def bskyInstallGuide : String :=
  "\nbsky CLI not found. To install:\n\n1. Install Node.js (https://nodejs.org)\n2. Run: npm install -g @atproto/cli\n3. Run: bsky login\n4. Follow the prompts to authenticate with your Bluesky account\n"

/-- Model of `check_bsky_cli_installed` (jasper_atproto.py, lines 558-590) given the
outcome of `bsky --version`. -/
def check_bsky_cli_installed (res : ProcResult) : Bool × String :=
  match res with
  | .notFound => (false, bskyInstallGuide)
  | .done code out _ =>
    if code = 0 then (true, "bsky CLI is installed: " ++ pyStrip out)
    else (false, "bsky CLI is installed but returned an error")

/-- Outcomes of the successive `bsky` subprocess calls made while posting
one file: `bsky --version`, `bsky show-session`, `bsky post`. -/
structure BskyCalls where
  version : ProcResult
  sessionCode : Int
  postCode : Int
  postOut : String
  postErr : String

/-- Attempt `https://bsky\.app/profile/[^/]+/post/[^\s]+` at the start of
the input. -/
def matchBskyUrlAt (cs : List Char) : Option String :=
  let lit := "https://bsky.app/profile/".toList
  let postLit := "/post/".toList
  if cs.take lit.length = lit then
    let rest := cs.drop lit.length
    let handle := rest.takeWhile (fun c => c ≠ '/')
    if handle.isEmpty then none
    else
      let rest2 := rest.dropWhile (fun c => c ≠ '/')
      if rest2.take postLit.length = postLit then
        let pid := (rest2.drop postLit.length).takeWhile (fun c => ¬ isPyWs c)
        if pid.isEmpty then none
        else some (String.mk (lit ++ handle ++ postLit ++ pid))
      else none
  else none

/-- Model of `re.search` of the Bluesky post-URL pattern: leftmost match. -/
def searchBskyUrl : List Char → Option String
  | [] => none
  | c :: rest =>
    match matchBskyUrlAt (c :: rest) with
    | some t => some t
    | none => searchBskyUrl rest

/-- Attempt `at://[^\s]+` at the start of the input. -/
def matchAtUriAt (cs : List Char) : Option String :=
  let lit := "at://".toList
  if cs.take lit.length = lit then
    let body := (cs.drop lit.length).takeWhile (fun c => ¬ isPyWs c)
    if body.isEmpty then none else some (String.mk (lit ++ body))
  else none

/-- Model of `re.search` of the AT-URI pattern: leftmost match. -/
def searchAtUri : List Char → Option String
  | [] => none
  | c :: rest =>
    match matchAtUriAt (c :: rest) with
    | some t => some t
    | none => searchAtUri rest

/-- Model of `post_to_atproto` (jasper_atproto.py, lines 202-371) with
`TEST_MODE = False`, given whether effective credentials are available, the
user-composed text, the file name and the subprocess outcomes.  Returns the
result (`none` = failure) together with the notification-callback and
subprocess events it emits, in order. -/
def post_to_atproto (credsOk : Bool) (userText : String) (name : String)
    (calls : BskyCalls) : Option String × List Ev :=
  if ¬ credsOk then
    (none, [.notify "Cannot post: No AT Protocol credentials found"])
  else if userText = "" then
    (none, [.notify "Cannot post: Empty post content"])
  else
    let chk := check_bsky_cli_installed calls.version
    if ¬ chk.1 then (none, [.notify ("Cannot post: " ++ chk.2)])
    else if calls.sessionCode ≠ 0 then
      (none, [.notify "Cannot post: Not authenticated with Bluesky. Please run 'bsky login' in terminal"])
    else
      let evs : List Ev := [.notify "Posting to Bluesky...", .bskyPost name]
      if calls.postCode ≠ 0 then
        (none, evs ++ [.notify ("Failed to post to Bluesky. Error: " ++ calls.postErr)])
      else
        match searchBskyUrl calls.postOut.toList with
        | some url =>
          (some url, evs ++ [.notify ("Successfully posted to Bluesky: " ++ url)])
        | none =>
          match searchAtUri calls.postOut.toList with
          | some uri =>
            let parts := uri.splitOn "/"
            if parts.length ≥ 4 then
              match parts.get? 4 with
              | some pid =>
                let url := "https://bsky.app/profile/" ++ (parts.get? 2).getD ""
                  ++ "/post/" ++ pid
                (some url,
                 evs ++ [.notify ("Successfully posted to Bluesky: " ++ url)])
              | none =>
                -- parts[4] raised IndexError, caught by the outer handler
                (none, evs ++ [.notify "Error posting to AT Protocol: list index out of range"])
            else
              (some uri, evs ++ [.notify ("Posted to Bluesky (URI: " ++ uri ++ ")")])
          | none =>
            (some ("Command succeeded but couldn't extract URL. Output: "
               ++ calls.postOut.take 100),
             evs ++ [.notify "Posted to Bluesky successfully"])

/-- A file queued for AT Protocol posting, with its frontmatter metadata
(the fallback on a frontmatter error sets `uuid := ""` and
`title := file name`). -/
structure AtpFile where
  name : String
  uuid : String
  title : String

/-- Environment of one AT Protocol batch. -/
structure AtpEnv where
  credsOk : Bool
  calls : AtpFile → BskyCalls
  saveThrows : Nat → Bool
  ts : AtpFile → String

/-- Mutable state threaded through the AT Protocol batch loop. -/
structure AtpState where
  results : List (String × Option String)
  index : List Json
  fs : FS
  saveCount : Nat
  events : List Ev

/-- One iteration of the `post_files_to_atproto` loop
(jasper_atproto.py, lines 421-515).  A file without a UUID is still
posted; only the index record is skipped (with a log line, not an error
notification). -/
def atpProcessFile (env : AtpEnv) (p userText : String) (st : AtpState)
    (f : AtpFile) : AtpState :=
  let st := { st with results := assocSet st.results f.name none }
  let r := post_to_atproto env.credsOk userText f.name (env.calls f)
  let st := { st with events := st.events ++ r.2 }
  match r.1 with
  | none =>
    { st with events := st.events
        ++ [.notify ("Failed to post " ++ f.name ++ " to AT Protocol.")] }
  | some url =>
    let st := { st with results := assocSet st.results f.name (some url) }
    if f.uuid = "" then
      { st with events := st.events
          ++ [.notify ("Posted " ++ f.name ++ " to AT Protocol")] }
    else
      match updateAtprotoIndex st.index f.uuid f.title url (env.ts f) with
      | none =>
        { st with events := st.events ++ [.notify ("Error posting " ++ f.name)] }
      | some newIndex =>
        let sv := save_atproto_posts_index st.fs newIndex p
          (env.saveThrows st.saveCount)
        let st := { st with index := newIndex, fs := sv.1,
                            saveCount := st.saveCount + 1 }
        let st :=
          if sv.2.1 then st
          else { st with events := st.events
              ++ [.notify ("Failed to save updated AT Protocol index after posting "
                    ++ f.name ++ "!")] }
        { st with events := st.events
            ++ [.notify ("Posted " ++ f.name ++ " to AT Protocol")] }

/-- Model of `post_files_to_atproto` (jasper_atproto.py, lines 377-523) with
`TEST_MODE = False`. -/
def post_files_to_atproto (env : AtpEnv) (files : List AtpFile) (fs0 : FS)
    (p userText : String) : List (String × Option String) × FS × List Ev :=
  if files.isEmpty then ([], fs0, [])
  else if ¬ env.credsOk then
    (files.map (fun f => (f.name, (none : Option String))), fs0,
     [.notify "AT Protocol posting cannot proceed: No credentials found."])
  else
    let st0 : AtpState :=
      { results := [], index := load_atproto_posts_index fs0 p, fs := fs0,
        saveCount := 0,
        events := [.notify ("Starting AT Protocol posting for "
          ++ toString files.length ++ " files...")] }
    let stF := files.foldl (atpProcessFile env p userText) st0
    let succ := (stF.results.filter (fun r => truthyResult r.2)).length
    let fail := (stF.results.filter (fun r => ¬ truthyResult r.2)).length
    (stF.results, stF.fs,
     stF.events ++ [.notify ("AT Protocol posting process completed: "
       ++ toString succ ++ " succeeded, " ++ toString fail ++ " failed.")])

/-- The cause logged by `get_wallet_balance` on each of its paths. -/
inductive BalLog where
  | noWallet : BalLog
  | cmdNotFound : BalLog
  | exitNonzero : BalLog
  | parseFail : BalLog
  | balanceOk : BalLog
deriving DecidableEq

/-- Numeric value of a digit string. -/
def digitsVal (s : String) : Nat :=
  s.toList.foldl (fun acc c => acc * 10 + (c.toNat - 48)) 0

/-- Exact value of the decimal numeral `ip ++ "." ++ fp` (Python's `float`
conversion rounds this to the nearest double; the rounding is abstracted
away). -/
def ratOfParts (ip fp : String) : ℚ :=
  (digitsVal ip : ℚ) + (digitsVal fp : ℚ) / (10 : ℚ) ^ fp.length

/-- Attempt `AR\s+(\d+\.\d+)` at the start of the input, returning the two
digit groups of the captured numeral. -/
def matchARBalanceAt (cs : List Char) : Option (String × String) :=
  match cs with
  | 'A' :: 'R' :: rest =>
    if (rest.takeWhile isPyWs).isEmpty then none
    else
      let r2 := rest.dropWhile isPyWs
      let ip := r2.takeWhile Char.isDigit
      if ip.isEmpty then none
      else
        match r2.dropWhile Char.isDigit with
        | '.' :: r3 =>
          let fp := r3.takeWhile Char.isDigit
          if fp.isEmpty then none else some (String.mk ip, String.mk fp)
        | _ => none
  | _ => none

/-- Model of `re.search` of the balance pattern: leftmost match. -/
def searchARBalance : List Char → Option (String × String)
  | [] => none
  | c :: rest =>
    match matchARBalanceAt (c :: rest) with
    | some r => some r
    | none => searchARBalance rest

/-- Model of `get_wallet_balance` (jasper_arweave.py, lines 181-227) given the
resolved wallet path and the outcome of the `arkb balance` subprocess:
every failure path returns `0` with its specific logged cause; a zero exit
whose stripped stdout matches `AR\s+(\d+\.\d+)` returns the parsed
balance. -/
def get_wallet_balance (wallet : Option String) (res : ProcResult) :
    ℚ × BalLog :=
  match wallet with
  | none => (0, .noWallet)
  | some _ =>
    match res with
    | .notFound => (0, .cmdNotFound)
    | .done code out _ =>
      if code ≠ 0 then (0, .exitNonzero)
      else
        match searchARBalance (pyStrip out).toList with
        | some r => (ratOfParts r.1 r.2, .balanceOk)
        | none => (0, .parseFail)

/-- Does the top-level JSON value carry key `k` bound to a list?  (The
shape the two loaders require.) -/
def hasListKey (j : Json) (k : String) : Bool :=
  match j with
  | .obj fields =>
    match assocGet fields k with
    | some (.arr _) => true
    | _ => false
  | _ => false

/-- Is the value a JSON object (a Python dict)? -/
def isObjJson (j : Json) : Bool :=
  match j with
  | .obj _ => true
  | _ => false

/-- Is the event an `arkb deploy` subprocess spawn? -/
def isDeployEv (e : Ev) : Bool :=
  match e with
  | .deployArkb _ => true
  | _ => false

/-- Is the event a `bsky post` subprocess spawn? -/
def isBskyPostEv (e : Ev) : Bool :=
  match e with
  | .bskyPost _ => true
  | _ => false

/-! Concrete scenarios used to settle individual claims. -/

/-- A filesystem holding one AT Protocol index file with some old content. -/
def atpDemoFS : FS :=
  fun q => if q = "data/atproto_posts.json" then some (.ok (.str "OLD")) else none

/-- An AT Protocol posts-index text that is valid JSON except for one
trailing comma before the closing bracket. -/
def c5text : String :=
  "\x7b\"posts\": [\x7b\"uuid\": \"abc\", \"title\": \"T\", \"url\": null, \"posted_at\": null\x7d,]\x7d"

/-- The record contained in `c5text`. -/
def c5record : Json :=
  .obj [("uuid", .str "abc"), ("title", .str "T"), ("url", .null),
        ("posted_at", .null)]

/-- An Arweave index text that is valid JSON except for one trailing
comma. -/
def c5arwText : String := "\x7b\"files\": [\x7b\"uuid\": \"abc\"\x7d,]\x7d"

/-- Subprocess outcomes for one fully successful `bsky` posting pipeline. -/
def demoCallsOk : BskyCalls :=
  { version := .done 0 "v1" "", sessionCode := 0, postCode := 0,
    postOut := "ok https://bsky.app/profile/me.bsky.social/post/abc123 done",
    postErr := "" }

/-- AT Protocol batch environment where every post succeeds. -/
def demoAtpEnv : AtpEnv :=
  { credsOk := true, calls := fun _ => demoCallsOk,
    saveThrows := fun _ => false, ts := fun _ => "T" }

/-- A queued file whose frontmatter has no UUID. -/
def demoNoUuidFile : AtpFile := { name := "n.md", uuid := "", title := "N" }

/-- One AT Protocol batch over the single UUID-less file. -/
def demoAtpRun : List (String × Option String) × FS × List Ev :=
  post_files_to_atproto demoAtpEnv [demoNoUuidFile] (fun _ => none)
    "data/atproto_posts.json" "hello"

/-- Arweave batch environment where the `arkb` executable is missing: every
spawned deploy raises `FileNotFoundError`. -/
def demoArkbMissingEnv : ArwEnv :=
  { wallet := some "w", deploy := fun _ => .notFound,
    save := fun _ => ⟨false, false, false, false⟩, ts := fun _ => "T" }

/-- Two well-formed queued files. -/
def demoArwFiles : List ArwFile :=
  [{ name := "a.md", uuid := "u1", title := "A", ftype := "" },
   { name := "b.md", uuid := "u2", title := "B", ftype := "" }]

/-- One Arweave batch over the two files with `arkb` missing. -/
def demoArwRun : List (String × Option String) × FS × List Ev :=
  upload_files_to_arweave demoArkbMissingEnv demoArwFiles (fun _ => none)
    "data/archive.json"

/-! Basic lemmas about the filesystem and dict models. -/

@[simp]
theorem setFile_self (fs : FS) (p : String) (c : FileText) :
    setFile fs p c p = some c := by
  simp [setFile]

theorem setFile_other (fs : FS) (p q : String) (c : FileText) (h : q ≠ p) :
    setFile fs p c q = fs q := by
  simp [setFile, h]

@[simp]
theorem delFile_self (fs : FS) (p : String) : delFile fs p p = none := by
  simp [delFile]

theorem delFile_other (fs : FS) (p q : String) (h : q ≠ p) :
    delFile fs p q = fs q := by
  simp [delFile, h]

@[simp]
theorem assocGet_assocSet_self {β : Type} (l : List (String × β)) (k : String)
    (v : β) : assocGet (assocSet l k v) k = some v := by
  induction l with
  | nil => simp [assocGet, assocSet]
  | cons kv rest ih =>
    by_cases h : kv.1 = k
    · simp [assocSet, assocGet, h]
    · simp [assocSet, assocGet, h, ih]

theorem assocGet_assocSet_ne {β : Type} (l : List (String × β)) (k k2 : String)
    (v : β) (h : k2 ≠ k) : assocGet (assocSet l k v) k2 = assocGet l k2 := by
  induction l with
  | nil => simp [assocGet, assocSet, Ne.symm h]
  | cons kv rest ih =>
    by_cases hk : kv.1 = k
    · simp [assocSet, assocGet, hk, Ne.symm h]
    · simp [assocSet, assocGet, hk, ih]

theorem mem_assocSet {β : Type} (l : List (String × β)) (k : String) (v : β)
    (r : String × β) (h : r ∈ assocSet l k v) : r ∈ l ∨ r = (k, v) := by
  induction l with
  | nil => simpa [assocSet] using h
  | cons kv rest ih =>
    by_cases hk : kv.1 = k
    · simp only [assocSet, hk, if_pos rfl] at h
      rcases List.mem_cons.mp h with h1 | h1
      · right
        rw [h1, ← hk]
      · left
        exact List.mem_cons_of_mem _ h1
    · simp only [assocSet, if_neg hk] at h
      rcases List.mem_cons.mp h with h1 | h1
      · exact Or.inl (h1 ▸ List.mem_cons_self _ _)
      · rcases ih h1 with h2 | h2
        · exact Or.inl (List.mem_cons_of_mem _ h2)
        · exact Or.inr h2

theorem assocGet_assocSet_isSome {β : Type} (l : List (String × β))
    (k k2 : String) (v : β) (h : (assocGet l k).isSome) :
    (assocGet (assocSet l k2 v) k).isSome := by
  by_cases hk : k = k2
  · rw [hk, assocGet_assocSet_self]
    rfl
  · rwa [assocGet_assocSet_ne _ _ _ _ hk]

/-- Claim C10: both status resolvers treat the literal string "N/A" exactly
like an absent identifier: for every snapshot they return the
no-identifier result without consulting the snapshot, the same result an
empty identifier yields. -/
theorem claim10_na_identifier (idx : List Json) :
    get_arweave_status "N/A" idx = some "No UUID found"
    ∧ get_atproto_status "N/A" idx = some "No UUID found"
    ∧ get_arweave_status "N/A" idx = get_arweave_status "" idx
    ∧ get_atproto_status "N/A" idx = get_atproto_status "" idx := by
  refine ⟨?_, ?_, ?_, ?_⟩ <;> simp [get_arweave_status, get_atproto_status]

/-! Status-resolver lemmas. -/

theorem arweaveStatusLoop_not_found (u : String) (l : List Json)
    (hobj : ∀ j ∈ l, isObjJson j = true)
    (hm : ∀ j ∈ l, matchesUuid u j = false) :
    arweaveStatusLoop u l = some "Not uploaded" := by
  induction l with
  | nil => rfl
  | cons item rest ih =>
    have hio := hobj item (List.mem_cons_self _ _)
    match item, hio with
    | .obj fields, _ =>
      have hmi := hm _ (List.mem_cons_self _ _)
      simp only [matchesUuid] at hmi
      simp only [arweaveStatusLoop, dictGet, hmi, Bool.false_eq_true, if_false]
      exact ih (fun j hj => hobj j (List.mem_cons_of_mem _ hj))
        (fun j hj => hm j (List.mem_cons_of_mem _ hj))

theorem atprotoStatusLoop_not_found (u : String) (l : List Json)
    (hobj : ∀ j ∈ l, isObjJson j = true)
    (hm : ∀ j ∈ l, matchesUuid u j = false) :
    atprotoStatusLoop u l = some "Not posted" := by
  induction l with
  | nil => rfl
  | cons item rest ih =>
    have hio := hobj item (List.mem_cons_self _ _)
    match item, hio with
    | .obj fields, _ =>
      have hmi := hm _ (List.mem_cons_self _ _)
      simp only [matchesUuid] at hmi
      simp only [atprotoStatusLoop, dictGet, hmi, Bool.false_eq_true, if_false]
      exact ih (fun j hj => hobj j (List.mem_cons_of_mem _ hj))
        (fun j hj => hm j (List.mem_cons_of_mem _ hj))

theorem arweaveStatusLoop_found (u : String) (pre post : List Json)
    (fields : List (String × Json)) (h : List Json)
    (hpre : ∀ j ∈ pre, isObjJson j = true)
    (hm : ∀ j ∈ pre, matchesUuid u j = false)
    (hu : eqStr (assocGet fields "uuid") u = true)
    (hh : assocGet fields "arweave_hashes" = some (.arr h)) :
    arweaveStatusLoop u (pre ++ .obj fields :: post) =
      some (if h.length = 0 then "Tracked in archive, but no uploads recorded"
        else "Uploaded (" ++ toString h.length ++ " version"
          ++ (if h.length = 1 then "" else "s") ++ ")") := by
  induction pre with
  | nil =>
    simp only [List.nil_append, arweaveStatusLoop, dictGet, hu, if_true, hh,
      Option.getD_some, pyLen]
    match hl : h.length with
    | 0 => simp
    | n + 1 => simp
  | cons item rest ih =>
    have hio := hpre item (List.mem_cons_self _ _)
    match item, hio with
    | .obj f2, _ =>
      have hmi := hm _ (List.mem_cons_self _ _)
      simp only [matchesUuid] at hmi
      simp only [List.cons_append, arweaveStatusLoop, dictGet, hmi,
        Bool.false_eq_true, if_false]
      exact ih (fun j hj => hpre j (List.mem_cons_of_mem _ hj))
        (fun j hj => hm j (List.mem_cons_of_mem _ hj))

theorem atprotoStatusLoop_found (u : String) (pre post : List Json)
    (fields : List (String × Json)) (uval : Option Json)
    (hpre : ∀ j ∈ pre, isObjJson j = true)
    (hm : ∀ j ∈ pre, matchesUuid u j = false)
    (hu : eqStr (assocGet fields "uuid") u = true)
    (hurl : assocGet fields "url" = uval) :
    atprotoStatusLoop u (pre ++ .obj fields :: post) =
      some (if pyTruthy (uval.getD .null) then "Posted" else "Draft") := by
  induction pre with
  | nil =>
    simp only [List.nil_append, atprotoStatusLoop, dictGet, hu, if_true, hurl]
  | cons item rest ih =>
    have hio := hpre item (List.mem_cons_self _ _)
    match item, hio with
    | .obj f2, _ =>
      have hmi := hm _ (List.mem_cons_self _ _)
      simp only [matchesUuid] at hmi
      simp only [List.cons_append, atprotoStatusLoop, dictGet, hmi,
        Bool.false_eq_true, if_false]
      exact ih (fun j hj => hpre j (List.mem_cons_of_mem _ hj))
        (fun j hj => hm j (List.mem_cons_of_mem _ hj))

/-- Claim C4: given an explicit snapshot, status resolution is a
deterministic function of (identifier, snapshot) applying the priority
rules: empty identifier → no-identifier result; empty snapshot →
index-unavailable result; identifier absent from a non-empty snapshot →
not-published result; found record → for the historied variant
Published(n) with n the history length and n = 0 surfaced distinctly, for
the single-slot variant Published when the locator is truthy and Draft
otherwise. -/
theorem claim4_status_resolution (u : String) (idx : List Json)
    (hu1 : u ≠ "") (hu2 : u ≠ "N/A")
    (hobj : ∀ j ∈ idx, isObjJson j = true) :
    (get_arweave_status "" idx = some "No UUID found"
      ∧ get_atproto_status "" idx = some "No UUID found")
    ∧ (get_arweave_status u [] = some "Not uploaded (archive not found or empty)"
      ∧ get_atproto_status u [] = some "Not posted (index not found or empty)")
    ∧ (idx ≠ [] → (∀ j ∈ idx, matchesUuid u j = false) →
        get_arweave_status u idx = some "Not uploaded"
        ∧ get_atproto_status u idx = some "Not posted")
    ∧ (∀ pre fields post h, idx = pre ++ .obj fields :: post →
        (∀ j ∈ pre, matchesUuid u j = false) →
        eqStr (assocGet fields "uuid") u = true →
        assocGet fields "arweave_hashes" = some (.arr h) →
        get_arweave_status u idx =
          some (if h.length = 0 then "Tracked in archive, but no uploads recorded"
            else "Uploaded (" ++ toString h.length ++ " version"
              ++ (if h.length = 1 then "" else "s") ++ ")"))
    ∧ (∀ pre fields post, idx = pre ++ .obj fields :: post →
        (∀ j ∈ pre, matchesUuid u j = false) →
        eqStr (assocGet fields "uuid") u = true →
        get_atproto_status u idx =
          some (if pyTruthy ((assocGet fields "url").getD .null)
            then "Posted" else "Draft"))
    ∧ (get_arweave_status u idx = get_arweave_status u idx
      ∧ get_atproto_status u idx = get_atproto_status u idx) := by
  have hne : ¬ (u = "N/A" ∨ u = "") := by
    rintro (h | h)
    · exact hu2 h
    · exact hu1 h
  refine ⟨⟨?_, ?_⟩, ⟨?_, ?_⟩, ?_, ?_, ?_, rfl, rfl⟩
  · simp [get_arweave_status]
  · simp [get_atproto_status]
  · simp [get_arweave_status, hne]
  · simp [get_atproto_status, hne]
  · intro hnil hm
    have hempty : idx.isEmpty = false := by
      cases idx with
      | nil => exact absurd rfl hnil
      | cons a l => rfl
    constructor
    · simp only [get_arweave_status, hne, if_false, hempty, Bool.false_eq_true]
      exact arweaveStatusLoop_not_found u idx hobj hm
    · simp only [get_atproto_status, hne, if_false, hempty, Bool.false_eq_true]
      exact atprotoStatusLoop_not_found u idx hobj hm
  · intro pre fields post h hidx hm huu hh
    have hempty : idx.isEmpty = false := by
      rw [hidx]
      cases pre <;> rfl
    have hpre : ∀ j ∈ pre, isObjJson j = true := by
      intro j hj
      exact hobj j (hidx ▸ List.mem_append_left _ hj)
    simp only [get_arweave_status, hne, if_false, hempty, Bool.false_eq_true]
    rw [hidx]
    exact arweaveStatusLoop_found u pre post fields h hpre hm huu hh
  · intro pre fields post hidx hm huu
    have hempty : idx.isEmpty = false := by
      rw [hidx]
      cases pre <;> rfl
    have hpre : ∀ j ∈ pre, isObjJson j = true := by
      intro j hj
      exact hobj j (hidx ▸ List.mem_append_left _ hj)
    simp only [get_atproto_status, hne, if_false, hempty, Bool.false_eq_true]
    rw [hidx]
    exact atprotoStatusLoop_found u pre post fields _ hpre hm huu rfl

/-- Witness for C4 at a concrete snapshot. -/
theorem claim4_witness :
    get_arweave_status "u"
      [Json.obj [("uuid", .str "u"),
        ("arweave_hashes", .arr [.null, .null])]] =
      some "Uploaded (2 versions)"
    ∧ get_atproto_status "u"
      [Json.obj [("uuid", .str "u"), ("url", .str "https://x")]] = some "Posted"
    ∧ get_arweave_status "u" [Json.obj [("uuid", .str "v")]] =
      some "Not uploaded" := by
  refine ⟨?_, ?_, ?_⟩
  · exact (claim4_status_resolution "u" _ (by decide) (by decide)
      (by simp [isObjJson])).2.2.2.1 [] _ [] [.null, .null] rfl
      (by simp) (by decide) rfl
  · exact (claim4_status_resolution "u" _ (by decide) (by decide)
      (by simp [isObjJson])).2.2.2.2.1 [] _ [] rfl (by simp) (by decide)
  · exact ((claim4_status_resolution "u" _ (by decide) (by decide)
      (by simp [isObjJson])).2.2.1 (by simp)
      (by simp [matchesUuid, eqStr, assocGet])).1

/-- Counterexample to claim C6 as stated: with selection `\x7b0\x7d` and a
directory subtree holding the files `[0, 1]` (non-empty, partially
selected), toggling twice does not return the selection to its original
state — it ends empty. -/
theorem claim6_double_toggle_counterexample :
    ([0, 1] : List ℕ) ≠ []
    ∧ toggle_directory_selection
        (toggle_directory_selection ({0} : Finset ℕ) [0, 1]) [0, 1]
      ≠ ({0} : Finset ℕ) := by
  constructor
  · decide
  · decide

/-- Claim C6, amended: one toggle of a non-empty subtree removes all of its
files when all are selected and adds them all otherwise, never touching
files outside the subtree; toggling twice restores the original selection
when the subtree was uniformly selected or unselected, while a partially
selected subtree ends fully deselected (`S \ files`). -/
theorem claim6_toggle_amended {α : Type} [DecidableEq α] (S : Finset α)
    (files : List α) (hne : files ≠ []) :
    (∀ x, x ∉ files → (x ∈ toggle_directory_selection S files ↔ x ∈ S))
    ∧ ((∀ x ∈ files, x ∈ S) →
        ∀ x ∈ files, x ∉ toggle_directory_selection S files)
    ∧ ((¬ ∀ x ∈ files, x ∈ S) →
        ∀ x ∈ files, x ∈ toggle_directory_selection S files)
    ∧ ((∀ x ∈ files, x ∈ S) ∨ (∀ x ∈ files, x ∉ S) →
        toggle_directory_selection (toggle_directory_selection S files) files = S)
    ∧ ((∃ x ∈ files, x ∈ S) → (∃ x ∈ files, x ∉ S) →
        toggle_directory_selection (toggle_directory_selection S files) files
          = S \ files.toFinset) := by
  have hempty : files.isEmpty = false := by
    cases files with
    | nil => exact absurd rfl hne
    | cons a l => rfl
  have hall : ∀ T : Finset α, files.all (· ∈ T) = true ↔ ∀ x ∈ files, x ∈ T := by
    intro T
    simp [List.all_eq_true]
  refine ⟨?_, ?_, ?_, ?_, ?_⟩
  · intro x hx
    by_cases hsel : files.all (· ∈ S) = true
    · simp [toggle_directory_selection, hempty, hsel, List.mem_toFinset, hx]
    · simp [toggle_directory_selection, hempty, hsel, List.mem_toFinset, hx]
  · intro hsel x hx
    have hb : files.all (· ∈ S) = true := (hall S).mpr hsel
    simp [toggle_directory_selection, hempty, hb, List.mem_toFinset, hx]
  · intro hsel x hx
    have hb : files.all (· ∈ S) = false := by
      cases hb2 : files.all (· ∈ S) with
      | false => rfl
      | true => exact absurd ((hall S).mp hb2) hsel
    simp [toggle_directory_selection, hempty, hb, List.mem_toFinset, hx]
  · rintro (hsel | hsel)
    · have hb : files.all (· ∈ S) = true := (hall S).mpr hsel
      have h1 : toggle_directory_selection S files = S \ files.toFinset := by
        simp [toggle_directory_selection, hempty, hb]
      rw [h1]
      have hb2 : files.all (· ∈ S \ files.toFinset) = false := by
        cases hb3 : files.all (· ∈ S \ files.toFinset) with
        | false => rfl
        | true =>
          obtain ⟨a, ha⟩ := List.exists_mem_of_ne_nil files hne
          have := (hall _).mp hb3 a ha
          simp [List.mem_toFinset, ha] at this
      have hsub : files.toFinset ⊆ S := by
        intro x hx
        exact hsel x (List.mem_toFinset.mp hx)
      have h2 : toggle_directory_selection (S \ files.toFinset) files
          = (S \ files.toFinset) ∪ files.toFinset := by
        simp only [toggle_directory_selection, hempty, hb2,
          Bool.false_eq_true, if_false]
      rw [h2, Finset.sdiff_union_self_eq_union, Finset.union_eq_left.mpr hsub]
    · have hb : files.all (· ∈ S) = false := by
        cases hb2 : files.all (· ∈ S) with
        | false => rfl
        | true =>
          obtain ⟨a, ha⟩ := List.exists_mem_of_ne_nil files hne
          exact absurd ((hall S).mp hb2 a ha) (hsel a ha)
      have h1 : toggle_directory_selection S files = S ∪ files.toFinset := by
        simp [toggle_directory_selection, hempty, hb]
      rw [h1]
      have hb2 : files.all (· ∈ S ∪ files.toFinset) = true := by
        refine (hall _).mpr ?_
        intro x hx
        simp [List.mem_toFinset, hx]
      have hdisj : S \ files.toFinset = S := by
        refine Finset.sdiff_eq_self_iff_disjoint.mpr ?_
        refine Finset.disjoint_left.mpr ?_
        intro x hxS hxF
        exact hsel x (List.mem_toFinset.mp hxF) hxS
      have h2 : toggle_directory_selection (S ∪ files.toFinset) files
          = (S ∪ files.toFinset) \ files.toFinset := by
        simp only [toggle_directory_selection, hempty, hb2,
          Bool.false_eq_true, if_false, if_true]
      rw [h2, Finset.union_sdiff_right, hdisj]
  · rintro ⟨a, ha, haS⟩ ⟨b, hb, hbS⟩
    have hball : files.all (· ∈ S) = false := by
      cases hb2 : files.all (· ∈ S) with
      | false => rfl
      | true => exact absurd ((hall S).mp hb2 b hb) hbS
    have h1 : toggle_directory_selection S files = S ∪ files.toFinset := by
      simp [toggle_directory_selection, hempty, hball]
    rw [h1]
    have hb2 : files.all (· ∈ S ∪ files.toFinset) = true := by
      refine (hall _).mpr ?_
      intro x hx
      simp [List.mem_toFinset, hx]
    have h2 : toggle_directory_selection (S ∪ files.toFinset) files
        = (S ∪ files.toFinset) \ files.toFinset := by
      simp only [toggle_directory_selection, hempty, hb2,
        Bool.false_eq_true, if_false, if_true]
    rw [h2, Finset.union_sdiff_right]

/-- Witness for C6 at concrete selections. -/
theorem claim6_witness :
    toggle_directory_selection
      (toggle_directory_selection ({0, 5} : Finset ℕ) [0, 5]) [0, 5]
      = ({0, 5} : Finset ℕ)
    ∧ toggle_directory_selection
      (toggle_directory_selection ({7} : Finset ℕ) [0, 5]) [0, 5]
      = ({7} : Finset ℕ)
    ∧ toggle_directory_selection
      (toggle_directory_selection ({0, 7} : Finset ℕ) [0, 5]) [0, 5]
      = ({0, 7} : Finset ℕ) \ ([0, 5] : List ℕ).toFinset := by
  refine ⟨?_, ?_, ?_⟩
  · exact (claim6_toggle_amended ({0, 5} : Finset ℕ) [0, 5]
      (by decide)).2.2.2.1 (Or.inl (by decide))
  · exact (claim6_toggle_amended ({7} : Finset ℕ) [0, 5]
      (by decide)).2.2.2.1 (Or.inr (by decide))
  · exact (claim6_toggle_amended ({0, 7} : Finset ℕ) [0, 5]
      (by decide)).2.2.2.2 ⟨0, by decide, by decide⟩ ⟨5, by decide, by decide⟩

/-! Index-store lemmas. -/

theorem extractKeyList_content (rs : List Json) (k : String) :
    extractKeyList (.obj [(k, .arr rs)]) k = rs := by
  simp [extractKeyList, assocGet]

theorem extractKeyList_of_not_hasListKey (j : Json) (k : String)
    (h : hasListKey j k = false) : extractKeyList j k = [] := by
  cases j with
  | obj fields =>
    simp only [hasListKey] at h
    simp only [extractKeyList]
    cases hg : assocGet fields k with
    | none => rfl
    | some v =>
      cases v <;> simp_all
  | null => rfl
  | bool b => rfl
  | num n => rfl
  | str s => rfl
  | arr xs => rfl

/-- Claim C1: round-trip law for the Index Store, both variants — a
successful save is followed by a load returning the same record sequence —
and load never raises: an absent, unparseable, or wrongly-shaped index file
loads as the empty sequence. -/
theorem claim1_index_roundtrip_and_degrade (rs : List Json) (fs : FS)
    (p : String) (o : SaveOracle) (wb : Bool) :
    ((save_arweave_index fs rs p o).2.1 = true →
      load_arweave_index (save_arweave_index fs rs p o).1 p = rs)
    ∧ ((save_atproto_posts_index fs rs p wb).2.1 = true →
      load_atproto_posts_index (save_atproto_posts_index fs rs p wb).1 p = rs)
    ∧ (fs p = none →
        load_arweave_index fs p = [] ∧ load_atproto_posts_index fs p = [])
    ∧ (fs p = some .bad →
        load_arweave_index fs p = [] ∧ load_atproto_posts_index fs p = [])
    ∧ (∀ j, fs p = some (.ok j) → hasListKey j "files" = false →
        load_arweave_index fs p = [])
    ∧ (∀ j, fs p = some (.ok j) → hasListKey j "posts" = false →
        load_atproto_posts_index fs p = []) := by
  refine ⟨?_, ?_, ?_, ?_, ?_, ?_⟩
  · intro hs
    by_cases hw : o.writeThrows
    · simp [save_arweave_index, hw] at hs
    · by_cases hr : o.replaceThrows
      · simp [save_arweave_index, hw, hr] at hs
      · simp only [save_arweave_index, hw, hr, Bool.false_eq_true, if_false,
          load_arweave_index, setFile_self]
        exact extractKeyList_content rs "files"
  · intro hs
    by_cases hw : wb
    · simp [save_atproto_posts_index, hw] at hs
    · simp only [save_atproto_posts_index, hw, Bool.false_eq_true, if_false,
        load_atproto_posts_index, setFile_self]
      exact extractKeyList_content rs "posts"
  · intro h
    constructor <;> simp [load_arweave_index, load_atproto_posts_index, h]
  · intro h
    constructor <;> simp [load_arweave_index, load_atproto_posts_index, h]
  · intro j h hk
    simp only [load_arweave_index, h]
    exact extractKeyList_of_not_hasListKey j "files" hk
  · intro j h hk
    simp only [load_atproto_posts_index, h]
    exact extractKeyList_of_not_hasListKey j "posts" hk

/-- Witness for C1: a concrete save-then-load round trip on both variants,
plus a degradation case. -/
theorem claim1_witness :
    load_arweave_index
      (save_arweave_index atpDemoFS [.str "r1"] "data/archive.json"
        ⟨false, false, false, false⟩).1 "data/archive.json" = [.str "r1"]
    ∧ load_atproto_posts_index
      (save_atproto_posts_index atpDemoFS [.str "r2"] "data/atproto_posts.json"
        false).1 "data/atproto_posts.json" = [.str "r2"]
    ∧ load_arweave_index atpDemoFS "absent.json" = [] := by
  refine ⟨?_, ?_, ?_⟩
  · exact (claim1_index_roundtrip_and_degrade [.str "r1"] atpDemoFS
      "data/archive.json" ⟨false, false, false, false⟩ false).1 rfl
  · exact (claim1_index_roundtrip_and_degrade [.str "r2"] atpDemoFS
      "data/atproto_posts.json" ⟨false, false, false, false⟩ false).2.1 rfl
  · exact ((claim1_index_roundtrip_and_degrade [] atpDemoFS "absent.json"
      ⟨false, false, false, false⟩ false).2.2.1 rfl).1

/-! Save-discipline lemmas. -/

theorem arwBackupFS_at_dest (fs : FS) (p : String) (o : SaveOracle)
    (hbp : bakPath p ≠ p) : arwBackupFS fs p o p = fs p := by
  unfold arwBackupFS
  cases hfp : fs p with
  | none => exact hfp
  | some c =>
    by_cases hbt : o.backupThrows
    · simp [hbt, hfp]
    · simp [hbt, setFile_other _ _ _ _ (Ne.symm hbp), hfp]

theorem arwBackupFS_at_bak (fs : FS) (p : String) (o : SaveOracle)
    (c : FileText) (hc : fs p = some c) (hbt : o.backupThrows = false) :
    arwBackupFS fs p o (bakPath p) = some c := by
  unfold arwBackupFS
  rw [hc]
  simp [hbt]

theorem restoreStep_at_dest_of_bak (fs2 : FS) (p : String) (o : SaveOracle)
    (c : FileText) (h2 : fs2 (bakPath p) = some c)
    (hrt : o.restoreThrows = false) : restoreStep fs2 p o p = some c := by
  unfold restoreStep
  rw [h2]
  simp [hrt]

theorem restoreStep_at_dest_cases (fs2 : FS) (p : String) (o : SaveOracle) :
    restoreStep fs2 p o p = fs2 p
    ∨ ∃ c, fs2 (bakPath p) = some c ∧ restoreStep fs2 p o p = some c := by
  unfold restoreStep
  cases h2 : fs2 (bakPath p) with
  | none => exact Or.inl rfl
  | some c =>
    by_cases hrt : o.restoreThrows
    · simp [hrt]
    · simp [hrt]

/-- Counterexample to claim C2 as stated: the AT Protocol variant's save,
run successfully over an existing destination, creates no `.bak` sibling
and no temporary sibling, and its trace exposes a truncated (partially
written) destination state to a concurrent reader. -/
theorem claim2_atproto_save_counterexample :
    (save_atproto_posts_index atpDemoFS [] "data/atproto_posts.json" false).2.1
      = true
    ∧ atpDemoFS "data/atproto_posts.json" = some (.ok (.str "OLD"))
    ∧ (save_atproto_posts_index atpDemoFS [] "data/atproto_posts.json" false).1
        (bakPath "data/atproto_posts.json") = none
    ∧ (save_atproto_posts_index atpDemoFS [] "data/atproto_posts.json" false).1
        (tmpPath "data/atproto_posts.json") = none
    ∧ ((save_atproto_posts_index atpDemoFS [] "data/atproto_posts.json"
          false).2.2.get? 1).map (fun st => st "data/atproto_posts.json")
      = some (some .bad) := by
  exact ⟨rfl, rfl, rfl, rfl, rfl⟩

/-- Claim C2, amended: only the content-addressed variant follows the
backup / temp-file / atomic-rename / restore discipline (backing up an
existing destination to the `.bak` sibling, placing the new index at the
destination only through the atomic rename — so that with a successful
backup a reader only ever observes the old or the new index — and, on a
write or replace exception, restoring the destination from the `.bak`
sibling and returning failure); the social variant's save writes the
destination in place with no backup, temporary file or restore, leaving a
partial destination on a write exception and exposing a mid-write partial
state even on success. -/
theorem claim2_save_discipline_amended (fs : FS) (rs : List Json) (p : String)
    (o : SaveOracle) (wb : Bool)
    (hbp : bakPath p ≠ p) (htp : tmpPath p ≠ p) (htb : tmpPath p ≠ bakPath p) :
    (∀ c, fs p = some c → o.backupThrows = false →
      (save_arweave_index fs rs p o).1 (bakPath p) = some c)
    ∧ ((save_arweave_index fs rs p o).2.1 = true ↔
        o.writeThrows = false ∧ o.replaceThrows = false)
    ∧ (o.writeThrows = false → o.replaceThrows = false →
        (save_arweave_index fs rs p o).1 p = some (.ok (arwContent rs))
        ∧ (save_arweave_index fs rs p o).1 (tmpPath p) = none)
    ∧ (o.writeThrows = true ∨ o.replaceThrows = true →
        (save_arweave_index fs rs p o).2.1 = false
        ∧ (o.restoreThrows = false →
            ∀ c, arwBackupFS fs p o (bakPath p) = some c →
              (save_arweave_index fs rs p o).1 p = some c))
    ∧ (∀ st ∈ (save_arweave_index fs rs p o).2.2,
        st p = fs p ∨ st p = some (.ok (arwContent rs))
          ∨ st p = arwBackupFS fs p o (bakPath p))
    ∧ (∀ c, fs p = some c → o.backupThrows = false →
        ∀ st ∈ (save_arweave_index fs rs p o).2.2,
          st p = some c ∨ st p = some (.ok (arwContent rs)))
    ∧ ((save_atproto_posts_index fs rs p wb).1 (bakPath p) = fs (bakPath p)
        ∧ (save_atproto_posts_index fs rs p wb).1 (tmpPath p) = fs (tmpPath p))
    ∧ (wb = true → (save_atproto_posts_index fs rs p wb).2.1 = false
        ∧ (save_atproto_posts_index fs rs p wb).1 p = some .bad)
    ∧ ((save_atproto_posts_index fs rs p wb).2.2.get? 1).map (fun st => st p)
      = some (some .bad) := by
  have hBp := arwBackupFS_at_dest fs p o hbp
  have htmp2p : ∀ X, setFile (arwBackupFS fs p o) (tmpPath p) X p = fs p := by
    intro X
    rw [setFile_other _ _ _ _ (Ne.symm htp), hBp]
  have htmp2bak : ∀ X,
      setFile (arwBackupFS fs p o) (tmpPath p) X (bakPath p)
        = arwBackupFS fs p o (bakPath p) := by
    intro X
    rw [setFile_other _ _ _ _ (Ne.symm htb)]
  refine ⟨?_, ?_, ?_, ?_, ?_, ?_, ?_, ?_, ?_⟩
  · -- backup-first
    intro c hc hbt
    have hBbak := arwBackupFS_at_bak fs p o c hc hbt
    by_cases hw : o.writeThrows
    · simp only [save_arweave_index, hw, if_true]
      unfold restoreStep
      rw [setFile_other _ _ _ _ (Ne.symm htb), hBbak]
      by_cases hrt : o.restoreThrows
      · simp only [hrt, if_true]
        rw [setFile_other _ _ _ _ (Ne.symm htb), hBbak]
      · simp only [hrt, Bool.false_eq_true, if_false]
        rw [setFile_other _ _ _ _ hbp, setFile_other _ _ _ _ (Ne.symm htb), hBbak]
    · by_cases hr : o.replaceThrows
      · simp only [save_arweave_index, hw, hr, Bool.false_eq_true, if_false,
          if_true]
        unfold restoreStep
        rw [setFile_other _ _ _ _ (Ne.symm htb), setFile_other _ _ _ _ (Ne.symm htb), hBbak]
        by_cases hrt : o.restoreThrows
        · simp only [hrt, if_true]
          rw [setFile_other _ _ _ _ (Ne.symm htb), setFile_other _ _ _ _ (Ne.symm htb), hBbak]
        · simp only [hrt, Bool.false_eq_true, if_false]
          rw [setFile_other _ _ _ _ hbp, setFile_other _ _ _ _ (Ne.symm htb),
            setFile_other _ _ _ _ (Ne.symm htb), hBbak]
      · simp only [save_arweave_index, hw, hr, Bool.false_eq_true, if_false]
        rw [setFile_other _ _ _ _ hbp, delFile_other _ _ _ (Ne.symm htb),
          setFile_other _ _ _ _ (Ne.symm htb), setFile_other _ _ _ _ (Ne.symm htb), hBbak]
  · -- success iff no write/replace exception
    by_cases hw : o.writeThrows
    · simp [save_arweave_index, hw]
    · by_cases hr : o.replaceThrows
      · simp [save_arweave_index, hw, hr]
      · simp [save_arweave_index, hw, hr]
  · -- success leaves the new index at the destination, temp removed
    intro hw hr
    simp only [save_arweave_index, hw, hr, Bool.false_eq_true, if_false]
    exact ⟨setFile_self _ _ _, by rw [setFile_other _ _ _ _ htp, delFile_self]⟩
  · -- failure: restore from backup
    intro hexc
    have hfail : (save_arweave_index fs rs p o).2.1 = false := by
      rcases hexc with hw | hr
      · simp [save_arweave_index, hw]
      · by_cases hw2 : o.writeThrows
        · simp [save_arweave_index, hw2]
        · simp [save_arweave_index, hw2, hr]
    refine ⟨hfail, ?_⟩
    intro hrt c hBbak
    by_cases hw : o.writeThrows
    · simp only [save_arweave_index, hw, if_true]
      exact restoreStep_at_dest_of_bak _ p o c (by rw [htmp2bak, hBbak]) hrt
    · have hr : o.replaceThrows = true := by
        rcases hexc with hw2 | hr2
        · exact absurd hw2 hw
        · exact hr2
      simp only [save_arweave_index, hw, hr, Bool.false_eq_true, if_false,
        if_true]
      refine restoreStep_at_dest_of_bak _ p o c ?_ hrt
      rw [setFile_other _ _ _ _ (Ne.symm htb), htmp2bak, hBbak]
  · -- atomicity of the destination along the trace
    intro st hst
    by_cases hw : o.writeThrows
    · simp only [save_arweave_index, hw, if_true, List.mem_cons,
        List.mem_singleton, List.not_mem_nil, or_false] at hst
      rcases hst with rfl | rfl | rfl | rfl
      · exact Or.inl rfl
      · exact Or.inl hBp
      · exact Or.inl (htmp2p _)
      · rcases restoreStep_at_dest_cases
          (setFile (arwBackupFS fs p o) (tmpPath p) .bad) p o with h | ⟨c, hc, h⟩
        · exact Or.inl (h.trans (htmp2p _))
        · rw [htmp2bak] at hc
          exact Or.inr (Or.inr (h.trans hc.symm))
    · by_cases hr : o.replaceThrows
      · simp only [save_arweave_index, hw, hr, Bool.false_eq_true, if_false,
          if_true, List.mem_cons, List.mem_singleton, List.not_mem_nil,
          or_false] at hst
        rcases hst with rfl | rfl | rfl | rfl | rfl
        · exact Or.inl rfl
        · exact Or.inl hBp
        · exact Or.inl (htmp2p _)
        · exact Or.inl ((setFile_other _ _ _ _ (Ne.symm htp)).trans (htmp2p _))
        · rcases restoreStep_at_dest_cases
            (setFile (setFile (arwBackupFS fs p o) (tmpPath p) .bad) (tmpPath p)
              (.ok (arwContent rs))) p o with h | ⟨c, hc, h⟩
          · exact Or.inl (h.trans
              ((setFile_other _ _ _ _ (Ne.symm htp)).trans (htmp2p _)))
          · rw [setFile_other _ _ _ _ (Ne.symm htb), htmp2bak] at hc
            exact Or.inr (Or.inr (h.trans hc.symm))
      · simp only [save_arweave_index, hw, hr, Bool.false_eq_true, if_false,
          List.mem_cons, List.mem_singleton, List.not_mem_nil, or_false] at hst
        rcases hst with rfl | rfl | rfl | rfl | rfl
        · exact Or.inl rfl
        · exact Or.inl hBp
        · exact Or.inl (htmp2p _)
        · exact Or.inl ((setFile_other _ _ _ _ (Ne.symm htp)).trans (htmp2p _))
        · exact Or.inr (Or.inl (setFile_self _ _ _))
  · -- with a good backup, a reader only observes old or new
    intro c hc hbt st hst
    have hBbak := arwBackupFS_at_bak fs p o c hc hbt
    have h5 : st p = fs p ∨ st p = some (.ok (arwContent rs))
        ∨ st p = arwBackupFS fs p o (bakPath p) := by
      revert hst
      -- reuse the previous conjunct's reasoning, re-established locally
      intro hst
      by_cases hw : o.writeThrows
      · simp only [save_arweave_index, hw, if_true, List.mem_cons,
          List.mem_singleton, List.not_mem_nil, or_false] at hst
        rcases hst with rfl | rfl | rfl | rfl
        · exact Or.inl rfl
        · exact Or.inl hBp
        · exact Or.inl (htmp2p _)
        · rcases restoreStep_at_dest_cases
            (setFile (arwBackupFS fs p o) (tmpPath p) .bad) p o with h | ⟨c2, hc2, h⟩
          · exact Or.inl (h.trans (htmp2p _))
          · rw [htmp2bak] at hc2
            exact Or.inr (Or.inr (h.trans hc2.symm))
      · by_cases hr : o.replaceThrows
        · simp only [save_arweave_index, hw, hr, Bool.false_eq_true, if_false,
            if_true, List.mem_cons, List.mem_singleton, List.not_mem_nil,
            or_false] at hst
          rcases hst with rfl | rfl | rfl | rfl | rfl
          · exact Or.inl rfl
          · exact Or.inl hBp
          · exact Or.inl (htmp2p _)
          · exact Or.inl ((setFile_other _ _ _ _ (Ne.symm htp)).trans (htmp2p _))
          · rcases restoreStep_at_dest_cases
              (setFile (setFile (arwBackupFS fs p o) (tmpPath p) .bad)
                (tmpPath p) (.ok (arwContent rs))) p o with h | ⟨c2, hc2, h⟩
            · exact Or.inl (h.trans
                ((setFile_other _ _ _ _ (Ne.symm htp)).trans (htmp2p _)))
            · rw [setFile_other _ _ _ _ (Ne.symm htb), htmp2bak] at hc2
              exact Or.inr (Or.inr (h.trans hc2.symm))
        · simp only [save_arweave_index, hw, hr, Bool.false_eq_true, if_false,
            List.mem_cons, List.mem_singleton, List.not_mem_nil,
            or_false] at hst
          rcases hst with rfl | rfl | rfl | rfl | rfl
          · exact Or.inl rfl
          · exact Or.inl hBp
          · exact Or.inl (htmp2p _)
          · exact Or.inl ((setFile_other _ _ _ _ (Ne.symm htp)).trans (htmp2p _))
          · exact Or.inr (Or.inl (setFile_self _ _ _))
    rcases h5 with h | h | h
    · exact Or.inl (h.trans hc)
    · exact Or.inr h
    · exact Or.inl (h.trans hBbak)
  · -- atproto save: no .bak, no temp sibling
    by_cases hwb : wb
    · constructor
      · simp only [save_atproto_posts_index, hwb, if_true]
        exact setFile_other _ _ _ _ hbp
      · simp only [save_atproto_posts_index, hwb, if_true]
        exact setFile_other _ _ _ _ htp
    · constructor
      · simp only [save_atproto_posts_index, hwb, Bool.false_eq_true, if_false]
        rw [setFile_other _ _ _ _ hbp, setFile_other _ _ _ _ hbp]
      · simp only [save_atproto_posts_index, hwb, Bool.false_eq_true, if_false]
        rw [setFile_other _ _ _ _ htp, setFile_other _ _ _ _ htp]
  · -- atproto write exception: failure, partial destination
    intro hwb
    constructor
    · simp [save_atproto_posts_index, hwb]
    · simp only [save_atproto_posts_index, hwb, if_true]
      exact setFile_self _ _ _
  · -- atproto trace always exposes a partial destination state
    by_cases hwb : wb
    · simp only [save_atproto_posts_index, hwb, if_true, List.get?]
      simp
    · simp only [save_atproto_posts_index, hwb, Bool.false_eq_true, if_false,
        List.get?]
      simp

/-- Witness for C2 at a concrete filesystem and path. -/
theorem claim2_witness :
    (save_arweave_index atpDemoFS [.str "r"] "data/atproto_posts.json"
      ⟨false, false, false, false⟩).1 (bakPath "data/atproto_posts.json")
      = some (.ok (.str "OLD"))
    ∧ (save_arweave_index atpDemoFS [.str "r"] "data/atproto_posts.json"
      ⟨false, true, false, false⟩).1 "data/atproto_posts.json"
      = some (.ok (.str "OLD"))
    ∧ (save_atproto_posts_index atpDemoFS [.str "r"] "data/atproto_posts.json"
      true).1 "data/atproto_posts.json" = some .bad := by
  have h := claim2_save_discipline_amended atpDemoFS [.str "r"]
    "data/atproto_posts.json" ⟨false, false, false, false⟩ true
    (by decide) (by decide) (by decide)
  have h2 := claim2_save_discipline_amended atpDemoFS [.str "r"]
    "data/atproto_posts.json" ⟨false, true, false, false⟩ true
    (by decide) (by decide) (by decide)
  refine ⟨h.1 _ rfl rfl, ?_, (h.2.2.2.2.2.2.2.1 rfl).2⟩
  exact (h2.2.2.2.1 (Or.inl rfl)).2 rfl _
    (arwBackupFS_at_bak _ _ _ _ rfl rfl)

/-! Find-or-append lemmas. -/

theorem assocGet_arwUpdateItem_uuid (fields : List (String × Json))
    (title : String) (entry : Json) :
    assocGet (arwUpdateItem fields title entry) "uuid"
      = assocGet fields "uuid" := by
  unfold arwUpdateItem
  rw [assocGet_assocSet_ne _ _ _ _ (by decide),
    assocGet_assocSet_ne _ _ _ _ (by decide)]

theorem assocGet_arwUpdateItem_hashes (fields : List (String × Json))
    (title : String) (entry : Json) (h : List Json)
    (hh : assocGet fields "arweave_hashes" = some (.arr h)) :
    assocGet (arwUpdateItem fields title entry) "arweave_hashes"
      = some (.arr (h ++ [entry])) := by
  simp only [arwUpdateItem, hh]
  rw [assocGet_assocSet_ne _ _ _ _ (by decide), assocGet_assocSet_self]

theorem assocGet_atpUpdateItem_uuid (fields : List (String × Json))
    (title url ts : String) :
    assocGet (atpUpdateItem fields title url ts) "uuid"
      = assocGet fields "uuid" := by
  unfold atpUpdateItem
  rw [assocGet_assocSet_ne _ _ _ _ (by decide),
    assocGet_assocSet_ne _ _ _ _ (by decide),
    assocGet_assocSet_ne _ _ _ _ (by decide)]

theorem assocGet_atpUpdateItem_url (fields : List (String × Json))
    (title url ts : String) :
    assocGet (atpUpdateItem fields title url ts) "url" = some (.str url) := by
  unfold atpUpdateItem
  rw [assocGet_assocSet_ne _ _ _ _ (by decide),
    assocGet_assocSet_ne _ _ _ _ (by decide), assocGet_assocSet_self]

theorem assocGet_atpUpdateItem_posted (fields : List (String × Json))
    (title url ts : String) :
    assocGet (atpUpdateItem fields title url ts) "posted_at"
      = some (.str ts) := by
  unfold atpUpdateItem
  rw [assocGet_assocSet_self]

theorem updateArweaveIndex_found (pre post : List Json)
    (fields : List (String × Json)) (u title : String) (entry : Json)
    (hpo : ∀ x ∈ pre, isObjJson x = true)
    (hpm : ∀ x ∈ pre, matchesUuid u x = false)
    (hu : eqStr (assocGet fields "uuid") u = true) :
    updateArweaveIndex (pre ++ .obj fields :: post) u title entry
      = some (pre ++ .obj (arwUpdateItem fields title entry) :: post) := by
  induction pre with
  | nil => simp [updateArweaveIndex, hu]
  | cons x rest ih =>
    have hxo := hpo x (List.mem_cons_self _ _)
    match x, hxo with
    | .obj f2, _ =>
      have hxm := hpm _ (List.mem_cons_self _ _)
      simp only [matchesUuid] at hxm
      simp only [List.cons_append, updateArweaveIndex, hxm, Bool.false_eq_true,
        if_false, List.append_eq]
      rw [ih (fun y hy => hpo y (List.mem_cons_of_mem _ hy))
        (fun y hy => hpm y (List.mem_cons_of_mem _ hy))]
      rfl

theorem updateArweaveIndex_not_found (l : List Json) (u title : String)
    (entry : Json)
    (ho : ∀ x ∈ l, isObjJson x = true)
    (hm : ∀ x ∈ l, matchesUuid u x = false) :
    updateArweaveIndex l u title entry
      = some (l ++ [arwNewItem u title entry]) := by
  induction l with
  | nil => rfl
  | cons x rest ih =>
    have hxo := ho x (List.mem_cons_self _ _)
    match x, hxo with
    | .obj f2, _ =>
      have hxm := hm _ (List.mem_cons_self _ _)
      simp only [matchesUuid] at hxm
      simp only [updateArweaveIndex, hxm, Bool.false_eq_true, if_false]
      rw [ih (fun y hy => ho y (List.mem_cons_of_mem _ hy))
        (fun y hy => hm y (List.mem_cons_of_mem _ hy))]
      rfl

theorem updateAtprotoIndex_found (pre post : List Json)
    (fields : List (String × Json)) (u title url ts : String)
    (hpo : ∀ x ∈ pre, isObjJson x = true)
    (hpm : ∀ x ∈ pre, matchesUuid u x = false)
    (hu : eqStr (assocGet fields "uuid") u = true) :
    updateAtprotoIndex (pre ++ .obj fields :: post) u title url ts
      = some (pre ++ .obj (atpUpdateItem fields title url ts) :: post) := by
  induction pre with
  | nil => simp [updateAtprotoIndex, hu]
  | cons x rest ih =>
    have hxo := hpo x (List.mem_cons_self _ _)
    match x, hxo with
    | .obj f2, _ =>
      have hxm := hpm _ (List.mem_cons_self _ _)
      simp only [matchesUuid] at hxm
      simp only [List.cons_append, updateAtprotoIndex, hxm, Bool.false_eq_true,
        if_false, List.append_eq]
      rw [ih (fun y hy => hpo y (List.mem_cons_of_mem _ hy))
        (fun y hy => hpm y (List.mem_cons_of_mem _ hy))]
      rfl

theorem updateAtprotoIndex_not_found (l : List Json) (u title url ts : String)
    (ho : ∀ x ∈ l, isObjJson x = true)
    (hm : ∀ x ∈ l, matchesUuid u x = false) :
    updateAtprotoIndex l u title url ts
      = some (l ++ [atpNewItem u title url ts]) := by
  induction l with
  | nil => rfl
  | cons x rest ih =>
    have hxo := ho x (List.mem_cons_self _ _)
    match x, hxo with
    | .obj f2, _ =>
      have hxm := hm _ (List.mem_cons_self _ _)
      simp only [updateAtprotoIndex, matchesUuid] at hxm ⊢
      simp only [hxm, Bool.false_eq_true, if_false]
      rw [ih (fun y hy => ho y (List.mem_cons_of_mem _ hy))
        (fun y hy => hm y (List.mem_cons_of_mem _ hy))]
      rfl

theorem matchesUuid_arwNewItem (u v title : String) (entry : Json) :
    matchesUuid v (arwNewItem u title entry) = (u == v) := by
  simp only [matchesUuid, arwNewItem, assocGet, eqStr]
  by_cases h : u = v <;> simp [h]

theorem matchesUuid_atpNewItem (u v title url ts : String) :
    matchesUuid v (atpNewItem u title url ts) = (u == v) := by
  simp only [matchesUuid, atpNewItem, assocGet, eqStr]
  by_cases h : u = v <;> simp [h]

theorem updateArweaveIndex_countP (l : List Json) (u title : String)
    (entry : Json)
    (ho : ∀ x ∈ l, isObjJson x = true)
    (hle : l.countP (matchesUuid u) ≤ 1) :
    ∃ res, updateArweaveIndex l u title entry = some res
      ∧ res.countP (matchesUuid u) = 1
      ∧ ∀ v, v ≠ u → res.countP (matchesUuid v) = l.countP (matchesUuid v) := by
  induction l with
  | nil =>
    refine ⟨[arwNewItem u title entry], rfl, ?_, ?_⟩
    · simp [List.countP_cons, matchesUuid_arwNewItem]
    · intro v hv
      simp [List.countP_cons, matchesUuid_arwNewItem, Ne.symm hv]
  | cons x rest ih =>
    have hxo := ho x (List.mem_cons_self _ _)
    match x, hxo with
    | .obj fields, _ =>
      by_cases hm : eqStr (assocGet fields "uuid") u = true
      · have hmx : matchesUuid u (Json.obj fields) = true := hm
        have hrest0 : rest.countP (matchesUuid u) = 0 := by
          rw [List.countP_cons, hmx] at hle
          simp only [if_true, eq_self_iff_true] at hle
          omega
        refine ⟨.obj (arwUpdateItem fields title entry) :: rest,
          by simp only [updateArweaveIndex, hm, if_true], ?_, ?_⟩
        · have : matchesUuid u (Json.obj (arwUpdateItem fields title entry))
              = true := by
            simp only [matchesUuid, assocGet_arwUpdateItem_uuid]
            exact hm
          simp [List.countP_cons, this, hrest0]
        · intro v hv
          have heq : matchesUuid v (Json.obj (arwUpdateItem fields title entry))
              = matchesUuid v (Json.obj fields) := by
            simp only [matchesUuid, assocGet_arwUpdateItem_uuid]
          simp [List.countP_cons, heq]
      · have hmx : matchesUuid u (Json.obj fields) = false := by
          simp only [matchesUuid]
          exact Bool.not_eq_true _ ▸ (Bool.eq_false_iff.mpr hm)
        have hle2 : rest.countP (matchesUuid u) ≤ 1 := by
          simp [List.countP_cons, hmx] at hle
          omega
        obtain ⟨res, hres, h1, h2⟩ :=
          ih (fun y hy => ho y (List.mem_cons_of_mem _ hy)) hle2
        refine ⟨.obj fields :: res, ?_, ?_, ?_⟩
        · simp only [updateArweaveIndex, hm, Bool.false_eq_true, if_false,
            hres]
          rfl
        · simp [List.countP_cons, hmx, h1]
        · intro v hv
          simp [List.countP_cons, h2 v hv]

theorem updateAtprotoIndex_countP (l : List Json) (u title url ts : String)
    (ho : ∀ x ∈ l, isObjJson x = true)
    (hle : l.countP (matchesUuid u) ≤ 1) :
    ∃ res, updateAtprotoIndex l u title url ts = some res
      ∧ res.countP (matchesUuid u) = 1
      ∧ ∀ v, v ≠ u → res.countP (matchesUuid v) = l.countP (matchesUuid v) := by
  induction l with
  | nil =>
    refine ⟨[atpNewItem u title url ts], rfl, ?_, ?_⟩
    · simp [List.countP_cons, matchesUuid_atpNewItem]
    · intro v hv
      simp [List.countP_cons, matchesUuid_atpNewItem, Ne.symm hv]
  | cons x rest ih =>
    have hxo := ho x (List.mem_cons_self _ _)
    match x, hxo with
    | .obj fields, _ =>
      by_cases hm : eqStr (assocGet fields "uuid") u = true
      · have hmx : matchesUuid u (Json.obj fields) = true := hm
        have hrest0 : rest.countP (matchesUuid u) = 0 := by
          rw [List.countP_cons, hmx] at hle
          simp only [if_true, eq_self_iff_true] at hle
          omega
        refine ⟨.obj (atpUpdateItem fields title url ts) :: rest,
          by simp only [updateAtprotoIndex, hm, if_true], ?_, ?_⟩
        · have : matchesUuid u (Json.obj (atpUpdateItem fields title url ts))
              = true := by
            simp only [matchesUuid, assocGet_atpUpdateItem_uuid]
            exact hm
          simp [List.countP_cons, this, hrest0]
        · intro v hv
          have heq : matchesUuid v (Json.obj (atpUpdateItem fields title url ts))
              = matchesUuid v (Json.obj fields) := by
            simp only [matchesUuid, assocGet_atpUpdateItem_uuid]
          simp [List.countP_cons, heq]
      · have hmx : matchesUuid u (Json.obj fields) = false := by
          simp only [matchesUuid]
          exact Bool.not_eq_true _ ▸ (Bool.eq_false_iff.mpr hm)
        have hle2 : rest.countP (matchesUuid u) ≤ 1 := by
          simp [List.countP_cons, hmx] at hle
          omega
        obtain ⟨res, hres, h1, h2⟩ :=
          ih (fun y hy => ho y (List.mem_cons_of_mem _ hy)) hle2
        refine ⟨.obj fields :: res, ?_, ?_, ?_⟩
        · simp only [updateAtprotoIndex, hm, Bool.false_eq_true, if_false, hres]
          rfl
        · simp [List.countP_cons, hmx, h1]
        · intro v hv
          simp [List.countP_cons, h2 v hv]

/-- Claim C3: find-or-append keeps identifiers unique for both variants —
a record for an existing identifier is updated in place (the historied
variant appends the new entry at the end of the existing history, the
single-slot variant overwrites locator and posted_at), otherwise exactly
one fresh record is appended; starting from unique identifiers, the result
holds exactly one record for the published identifier and the record count
of every other identifier is unchanged. -/
theorem claim3_find_or_append (idx : List Json) (u title url ts : String)
    (entry : Json) :
    (∀ pre post fields h, idx = pre ++ .obj fields :: post →
      (∀ x ∈ pre, isObjJson x = true) →
      (∀ x ∈ pre, matchesUuid u x = false) →
      eqStr (assocGet fields "uuid") u = true →
      assocGet fields "arweave_hashes" = some (.arr h) →
      updateArweaveIndex idx u title entry
        = some (pre ++ .obj (arwUpdateItem fields title entry) :: post)
      ∧ assocGet (arwUpdateItem fields title entry) "arweave_hashes"
        = some (.arr (h ++ [entry]))
      ∧ assocGet (arwUpdateItem fields title entry) "uuid"
        = assocGet fields "uuid")
    ∧ ((∀ x ∈ idx, isObjJson x = true) → (∀ x ∈ idx, matchesUuid u x = false) →
        updateArweaveIndex idx u title entry
          = some (idx ++ [arwNewItem u title entry]))
    ∧ ((∀ x ∈ idx, isObjJson x = true) → idx.countP (matchesUuid u) ≤ 1 →
        ∃ res, updateArweaveIndex idx u title entry = some res
          ∧ res.countP (matchesUuid u) = 1
          ∧ ∀ v, v ≠ u → res.countP (matchesUuid v) = idx.countP (matchesUuid v))
    ∧ (∀ pre post fields, idx = pre ++ .obj fields :: post →
        (∀ x ∈ pre, isObjJson x = true) →
        (∀ x ∈ pre, matchesUuid u x = false) →
        eqStr (assocGet fields "uuid") u = true →
        updateAtprotoIndex idx u title url ts
          = some (pre ++ .obj (atpUpdateItem fields title url ts) :: post)
        ∧ assocGet (atpUpdateItem fields title url ts) "url" = some (.str url)
        ∧ assocGet (atpUpdateItem fields title url ts) "posted_at"
          = some (.str ts)
        ∧ assocGet (atpUpdateItem fields title url ts) "uuid"
          = assocGet fields "uuid")
    ∧ ((∀ x ∈ idx, isObjJson x = true) → (∀ x ∈ idx, matchesUuid u x = false) →
        updateAtprotoIndex idx u title url ts
          = some (idx ++ [atpNewItem u title url ts]))
    ∧ ((∀ x ∈ idx, isObjJson x = true) → idx.countP (matchesUuid u) ≤ 1 →
        ∃ res, updateAtprotoIndex idx u title url ts = some res
          ∧ res.countP (matchesUuid u) = 1
          ∧ ∀ v, v ≠ u →
              res.countP (matchesUuid v) = idx.countP (matchesUuid v)) := by
  refine ⟨?_, ?_, ?_, ?_, ?_, ?_⟩
  · intro pre post fields h hidx hpo hpm hu hh
    refine ⟨?_, assocGet_arwUpdateItem_hashes fields title entry h hh,
      assocGet_arwUpdateItem_uuid fields title entry⟩
    rw [hidx]
    exact updateArweaveIndex_found pre post fields u title entry hpo hpm hu
  · intro ho hm
    exact updateArweaveIndex_not_found idx u title entry ho hm
  · intro ho hle
    exact updateArweaveIndex_countP idx u title entry ho hle
  · intro pre post fields hidx hpo hpm hu
    refine ⟨?_, assocGet_atpUpdateItem_url fields title url ts,
      assocGet_atpUpdateItem_posted fields title url ts,
      assocGet_atpUpdateItem_uuid fields title url ts⟩
    rw [hidx]
    exact updateAtprotoIndex_found pre post fields u title url ts hpo hpm hu
  · intro ho hm
    exact updateAtprotoIndex_not_found idx u title url ts ho hm
  · intro ho hle
    exact updateAtprotoIndex_countP idx u title url ts ho hle

/-- Witness for C3 at the spec's concrete scenario: a second publish of
identifier "abc" appends `h2` after `h1` (history length 2, order kept),
and a fresh identifier appends one new record. -/
theorem claim3_witness :
    assocGet
      (arwUpdateItem
        [("uuid", .str "abc"), ("title", .str "T"),
         ("arweave_hashes", .arr [mkArweaveEntry "h1" "t1"])]
        "T" (mkArweaveEntry "h2" "t2")) "arweave_hashes"
      = some (.arr [mkArweaveEntry "h1" "t1", mkArweaveEntry "h2" "t2"])
    ∧ updateArweaveIndex
        [.obj [("uuid", .str "abc"), ("title", .str "T"),
          ("arweave_hashes", .arr [mkArweaveEntry "h1" "t1"])]]
        "abc" "T" (mkArweaveEntry "h2" "t2")
      = some [.obj (arwUpdateItem
          [("uuid", .str "abc"), ("title", .str "T"),
           ("arweave_hashes", .arr [mkArweaveEntry "h1" "t1"])]
          "T" (mkArweaveEntry "h2" "t2"))]
    ∧ updateAtprotoIndex [] "u2" "T2" "https://x" "t3"
      = some [atpNewItem "u2" "T2" "https://x" "t3"] := by
  have h := claim3_find_or_append
    [.obj [("uuid", .str "abc"), ("title", .str "T"),
      ("arweave_hashes", .arr [mkArweaveEntry "h1" "t1"])]]
    "abc" "T" "https://x" "t3" (mkArweaveEntry "h2" "t2")
  have h2 := (h.1 [] [] [("uuid", .str "abc"), ("title", .str "T"),
    ("arweave_hashes", .arr [mkArweaveEntry "h1" "t1"])]
    [mkArweaveEntry "h1" "t1"] rfl (by simp) (by simp) (by decide) rfl)
  refine ⟨h2.2.1, h2.1, ?_⟩
  have h3 := claim3_find_or_append [] "u2" "T2" "https://x" "t3" .null
  exact h3.2.2.2.2.1 (by simp) (by simp)

/-! Trailing-comma sanitization lemmas. -/

theorem dropWhile_all_append (p : Char → Bool) (l r : List Char)
    (hl : ∀ c ∈ l, p c = true) (hr : ∀ c, r.head? = some c → p c = false) :
    (l ++ r).dropWhile p = r := by
  induction l with
  | nil =>
    cases r with
    | nil => rfl
    | cons c tail =>
      simp only [List.nil_append, List.dropWhile_cons, hr c rfl,
        Bool.false_eq_true, if_false]
  | cons c tail ih =>
    simp only [List.cons_append, List.dropWhile_cons,
      hl c (List.mem_cons_self _ _), if_true]
    exact ih (fun d hd => hl d (List.mem_cons_of_mem _ hd))

theorem subCCFuel_fuel_irrelevant (close : Char) :
    ∀ (f1 : Nat) (cs : List Char) (f2 : Nat), cs.length ≤ f1 →
      cs.length ≤ f2 → subCCFuel close f1 cs = subCCFuel close f2 cs := by
  intro f1
  induction f1 with
  | zero =>
    intro cs f2 h1 _
    have : cs = [] := List.length_eq_zero.mp (Nat.le_zero.mp h1)
    subst this
    cases f2 <;> rfl
  | succ g1 ih =>
    intro cs f2 h1 h2
    cases cs with
    | nil => cases f2 <;> rfl
    | cons c cs2 =>
      cases f2 with
      | zero => simp at h2
      | succ g2 =>
        have hlen : cs2.length ≤ g1 := by
          simp only [List.length_cons] at h1
          omega
        have hlen2 : cs2.length ≤ g2 := by
          simp only [List.length_cons] at h2
          omega
        have hdrop : (cs2.dropWhile isPyWs).length ≤ cs2.length :=
          (cs2.dropWhile_sublist isPyWs).length_le
        have htail : (cs2.dropWhile isPyWs).tail.length ≤ cs2.length := by
          rw [List.length_tail]
          omega
        simp only [subCCFuel]
        by_cases hcond : c = ',' ∧ ((cs2.dropWhile isPyWs).head? = some close)
        · simp only [hcond, and_self, if_true]
          rw [ih _ g2 (le_trans htail hlen) (le_trans htail hlen2)]
        · simp only [hcond, if_false]
          rw [ih _ g2 hlen hlen2]

theorem subCommaClose_trailing (close : Char) (hc : isPyWs close = false)
    (ws rest : List Char) (hws : ∀ c ∈ ws, isPyWs c = true) :
    subCommaClose close (',' :: (ws ++ close :: rest))
      = close :: subCommaClose close rest := by
  have hd : (ws ++ close :: rest).dropWhile isPyWs = close :: rest :=
    dropWhile_all_append _ _ _ hws
      (by
        intro c h
        simp only [List.head?_cons, Option.some.injEq] at h
        rw [← h]
        exact hc)
  show subCCFuel close (',' :: (ws ++ close :: rest)).length
      (',' :: (ws ++ close :: rest)) = close :: subCommaClose close rest
  have hlen : (',' :: (ws ++ close :: rest)).length
      = (ws ++ close :: rest).length + 1 := rfl
  rw [hlen]
  simp only [subCCFuel, hd, List.head?_cons, List.tail_cons, and_self, if_true]
  refine congrArg (fun l => close :: l) ?_
  exact subCCFuel_fuel_irrelevant close _ rest rest.length
    (by simp [List.length_append, List.length_cons]; omega) le_rfl

/-- Counterexample to claim C5 as stated: `c5text` is a posts-index file
text that is valid JSON except for one trailing comma (its sanitized form
parses to the expected shape holding one record), yet the social variant's
load hands the raw text to the parser, which rejects it, and degrades to
the empty sequence instead of returning the contained record. -/
theorem claim5_atproto_trailing_comma_counterexample :
    parseJson c5text = none
    ∧ parseJson (sanitizeTrailingCommas c5text)
      = some (.obj [("posts", .arr [c5record])])
    ∧ loadAtprotoFromText c5text = [] := by
  exact ⟨rfl, rfl, rfl⟩

/-- Claim C5, amended: only the content-addressed variant tolerates
trailing-comma malformations — its load parses the sanitized text (so any
text whose sanitization parses to the expected shape yields its records,
trailing commas removed by the sanitizer as the last two conjuncts state),
while the social variant parses the raw text and returns the empty
sequence whenever that fails. -/
theorem claim5_sanitize_amended (s : String) (rs : List Json)
    (ws rest : List Char) :
    (parseJson (sanitizeTrailingCommas s) = some (.obj [("files", .arr rs)]) →
      loadArweaveFromText s = rs)
    ∧ (parseJson s = none → loadAtprotoFromText s = [])
    ∧ (parseJson s = some (.obj [("posts", .arr rs)]) →
      loadAtprotoFromText s = rs)
    ∧ ((∀ c ∈ ws, isPyWs c = true) →
        subCommaClose '}' (',' :: (ws ++ '}' :: rest))
          = '}' :: subCommaClose '}' rest)
    ∧ ((∀ c ∈ ws, isPyWs c = true) →
        subCommaClose ']' (',' :: (ws ++ ']' :: rest))
          = ']' :: subCommaClose ']' rest) := by
  refine ⟨?_, ?_, ?_, ?_, ?_⟩
  · intro h
    unfold loadArweaveFromText
    rw [h]
    exact extractKeyList_content rs "files"
  · intro h
    unfold loadAtprotoFromText
    rw [h]
  · intro h
    unfold loadAtprotoFromText
    rw [h]
    exact extractKeyList_content rs "posts"
  · exact subCommaClose_trailing '}' (by decide) ws rest
  · exact subCommaClose_trailing ']' (by decide) ws rest

/-- Witness for C5: the content-addressed load recovers the record from a
concrete trailing-comma file text. -/
theorem claim5_witness :
    loadArweaveFromText c5arwText = [.obj [("uuid", .str "abc")]]
    ∧ loadAtprotoFromText c5text = []
    ∧ subCommaClose '}' [',', ' ', '}'] = ['}'] := by
  refine ⟨?_, ?_, ?_⟩
  · exact (claim5_sanitize_amended c5arwText [.obj [("uuid", .str "abc")]]
      [] []).1 rfl
  · exact (claim5_sanitize_amended c5text [] [] []).2.1 rfl
  · exact (claim5_sanitize_amended c5arwText [] [' '] []).2.2.2.1
      (by decide)

/-! Balance-probe lemmas. -/

theorem takeWhile_all_append (p : Char → Bool) (l r : List Char)
    (hl : ∀ c ∈ l, p c = true) (hr : ∀ c, r.head? = some c → p c = false) :
    (l ++ r).takeWhile p = l := by
  induction l with
  | nil =>
    cases r with
    | nil => rfl
    | cons c tail =>
      simp only [List.nil_append, List.takeWhile_cons, hr c rfl,
        Bool.false_eq_true, if_false]
  | cons c tail ih =>
    simp only [List.cons_append, List.takeWhile_cons,
      hl c (List.mem_cons_self _ _), if_true]
    rw [ih (fun d hd => hl d (List.mem_cons_of_mem _ hd))]

theorem isPyWs_of_isDigit_false (c : Char) (h : c.isDigit = true) :
    isPyWs c = false := by
  cases hpw : isPyWs c with
  | false => rfl
  | true =>
    exfalso
    unfold isPyWs at hpw
    have := of_decide_eq_true hpw
    rcases this with h1 | h1 | h1 | h1 | h1 | h1 <;> subst h1 <;>
      exact absurd h (by decide)

/-- Claim C9: the balance probe never raises — every failure path (wallet
reference unresolvable, external tool missing, non-zero exit, unparsable
output) returns 0 with its specific logged cause, and on success the
numeric balance parsed from the tool's output is returned.  The final
conjunct checks the output matcher itself on every well-formed balance
line. -/
theorem claim9_balance_probe (w : String) (res : ProcResult) :
    get_wallet_balance none res = (0, .noWallet)
    ∧ get_wallet_balance (some w) .notFound = (0, .cmdNotFound)
    ∧ (∀ (code : Int) (out err : String), code ≠ 0 →
        get_wallet_balance (some w) (.done code out err) = (0, .exitNonzero))
    ∧ (∀ out err, searchARBalance (pyStrip out).toList = none →
        get_wallet_balance (some w) (.done 0 out err) = (0, .parseFail))
    ∧ (∀ out err ip fp, searchARBalance (pyStrip out).toList = some (ip, fp) →
        get_wallet_balance (some w) (.done 0 out err)
          = (ratOfParts ip fp, .balanceOk))
    ∧ (∀ wo : Option String, (get_wallet_balance wo res).2 ≠ .balanceOk →
        (get_wallet_balance wo res).1 = 0)
    ∧ (∀ ipl fpl rest : List Char, ipl ≠ [] → fpl ≠ [] →
        (∀ c ∈ ipl, c.isDigit = true) → (∀ c ∈ fpl, c.isDigit = true) →
        (∀ c, rest.head? = some c → c.isDigit = false) →
        searchARBalance ('A' :: 'R' :: ' ' :: (ipl ++ '.' :: (fpl ++ rest)))
          = some (String.mk ipl, String.mk fpl)) := by
  refine ⟨rfl, rfl, ?_, ?_, ?_, ?_, ?_⟩
  · intro code out err hc
    simp [get_wallet_balance, hc]
  · intro out err hs
    simp only [String.toList] at hs
    simp [get_wallet_balance, hs]
  · intro out err ip fp hs
    simp only [String.toList] at hs
    simp [get_wallet_balance, hs]
  · intro wo hne
    match wo with
    | none => rfl
    | some w2 =>
      match res with
      | .notFound => rfl
      | .done code out err =>
        by_cases hc : code ≠ 0
        · simp [get_wallet_balance, hc]
        · cases hs : searchARBalance (pyStrip out).toList with
          | none =>
            simp only [String.toList] at hs
            simp [get_wallet_balance, hc, hs]
          | some r =>
            exfalso
            apply hne
            simp only [String.toList] at hs
            simp [get_wallet_balance, hc, hs]
  · intro ipl fpl rest hip hfp hd1 hd2 hrest
    have hws : ∀ c ∈ [' '], isPyWs c = true := by
      intro c hc
      simp at hc
      subst hc
      rfl
    have hid : ∀ c, (ipl ++ '.' :: (fpl ++ rest)).head? = some c →
        isPyWs c = false := by
      intro c hc
      cases ipl with
      | nil => exact absurd rfl hip
      | cons a tl =>
        simp only [List.cons_append, List.head?_cons, Option.some.injEq] at hc
        rw [← hc]
        exact isPyWs_of_isDigit_false a (hd1 a (List.mem_cons_self _ _))
    have hdot : ∀ c, ('.' :: (fpl ++ rest)).head? = some c →
        c.isDigit = false := by
      intro c hc
      simp only [List.head?_cons, Option.some.injEq] at hc
      rw [← hc]
      rfl
    show (match matchARBalanceAt ('A' :: 'R' :: ' '
        :: (ipl ++ '.' :: (fpl ++ rest))) with
      | some r => some r
      | none => searchARBalance (('R' : Char) :: ' '
          :: (ipl ++ '.' :: (fpl ++ rest)))) = some (String.mk ipl, String.mk fpl)
    have hmatch : matchARBalanceAt ('A' :: 'R' :: ' '
        :: (ipl ++ '.' :: (fpl ++ rest))) = some (String.mk ipl, String.mk fpl) := by
      simp only [matchARBalanceAt]
      have h1 : (' ' :: (ipl ++ '.' :: (fpl ++ rest))).takeWhile isPyWs
          = [' '] := by
        have := takeWhile_all_append isPyWs [' ']
          (ipl ++ '.' :: (fpl ++ rest)) hws hid
        simpa using this
      have h2 : (' ' :: (ipl ++ '.' :: (fpl ++ rest))).dropWhile isPyWs
          = ipl ++ '.' :: (fpl ++ rest) := by
        have := dropWhile_all_append isPyWs [' ']
          (ipl ++ '.' :: (fpl ++ rest)) hws hid
        simpa using this
      rw [h1, h2]
      have h3 : (ipl ++ '.' :: (fpl ++ rest)).takeWhile Char.isDigit = ipl :=
        takeWhile_all_append _ _ _ hd1 hdot
      have h4 : (ipl ++ '.' :: (fpl ++ rest)).dropWhile Char.isDigit
          = '.' :: (fpl ++ rest) :=
        dropWhile_all_append _ _ _ hd1 hdot
      rw [h3, h4]
      have h5 : (fpl ++ rest).takeWhile Char.isDigit = fpl :=
        takeWhile_all_append _ _ _ hd2
          (fun c hc => hrest c hc)
      simp [hip, hfp, h5]
    rw [hmatch]

/-- Witness for C9 on concrete subprocess outcomes. -/
theorem claim9_witness :
    get_wallet_balance (some "w") (.done 0 "Total: AR 1.50 ok" "")
      = (ratOfParts "1" "50", .balanceOk)
    ∧ get_wallet_balance (some "w") (.done 2 "" "boom") = (0, .exitNonzero)
    ∧ get_wallet_balance (some "w") (.done 0 "no balance" "") = (0, .parseFail)
    ∧ searchARBalance ('A' :: 'R' :: ' ' :: ("12".toList ++ '.'
        :: ("5".toList ++ " x".toList))) = some ("12", "5") := by
  refine ⟨?_, ?_, ?_, ?_⟩
  · exact (claim9_balance_probe "w" .notFound).2.2.2.2.1
      "Total: AR 1.50 ok" "" "1" "50" (by decide)
  · exact (claim9_balance_probe "w" .notFound).2.2.1 2 "" "boom" (by decide)
  · exact (claim9_balance_probe "w" .notFound).2.2.2.1 "no balance" "" (by decide)
  · exact (claim9_balance_probe "w" .notFound).2.2.2.2.2.2
      "12".toList "5".toList " x".toList (by decide) (by decide) (by decide)
      (by decide) (by decide)

/-! Orchestrator-loop lemmas. -/

theorem arwProcessFile_no_uuid (env : ArwEnv) (p : String) (st : ArwState)
    (f : ArwFile) (h : f.uuid = "") :
    arwProcessFile env p st f =
      { st with
          results := assocSet st.results f.name none
          events := st.events
            ++ [.notify ("Skipping " ++ f.name
                ++ ": No UUID found in frontmatter.")] } := by
  simp [arwProcessFile, h]

theorem arwProcessFile_deploy_notFound (env : ArwEnv) (p : String)
    (st : ArwState) (f : ArwFile) (w : String) (hw : env.wallet = some w)
    (hu : f.uuid ≠ "") (hd : env.deploy f = .notFound) :
    arwProcessFile env p st f =
      { st with
          results := assocSet st.results f.name none
          events := st.events
            ++ [.deployArkb f.name,
                .notify ("Failed to upload " ++ f.name ++ " to Arweave.")] } := by
  simp [arwProcessFile, hu, upload_to_arweave, hw, hd, execArkbDeploy]

theorem arwProcessFile_results_shape (env : ArwEnv) (p : String)
    (st : ArwState) (f : ArwFile) :
    (arwProcessFile env p st f).results = assocSet st.results f.name none
    ∨ ∃ tx, (arwProcessFile env p st f).results
        = assocSet (assocSet st.results f.name none) f.name (some tx) := by
  unfold arwProcessFile
  by_cases hu : f.uuid = ""
  · simp [hu]
  · simp only [hu, Bool.false_eq_true, if_false]
    cases htx : (upload_to_arweave f.name env.wallet (env.deploy f)).1 with
    | none => simp [htx]
    | some tx =>
      simp only [htx]
      cases hupd : updateArweaveIndex st.index f.uuid f.title
          (mkArweaveEntry tx (env.ts f)) with
      | none => exact Or.inr ⟨tx, by simp [hupd]⟩
      | some newIndex =>
        refine Or.inr ⟨tx, ?_⟩
        by_cases hsv : (save_arweave_index st.fs newIndex p
            (env.save st.saveCount)).2.1 <;> simp [hupd, hsv]

theorem arw_fold_key_isSome (env : ArwEnv) (p : String) (files : List ArwFile) :
    ∀ (st : ArwState) (k : String),
      ((assocGet st.results k).isSome ∨ ∃ f ∈ files, f.name = k) →
      (assocGet (files.foldl (arwProcessFile env p) st).results k).isSome := by
  induction files with
  | nil =>
    intro st k h
    rcases h with h | ⟨f, hf, _⟩
    · exact h
    · simp at hf
  | cons g gs ih =>
    intro st k h
    have hstep : (assocGet (arwProcessFile env p st g).results k).isSome
        ∨ ((assocGet st.results k).isSome →
            (assocGet (arwProcessFile env p st g).results k).isSome) := by
      rcases arwProcessFile_results_shape env p st g with hs | ⟨tx, hs⟩
      · rw [hs]
        by_cases hk : k = g.name
        · subst hk
          exact Or.inl (by rw [assocGet_assocSet_self]; rfl)
        · exact Or.inr (fun hp => assocGet_assocSet_isSome _ _ _ _ hp)
      · rw [hs]
        by_cases hk : k = g.name
        · subst hk
          exact Or.inl (by rw [assocGet_assocSet_self]; rfl)
        · exact Or.inr (fun hp =>
            assocGet_assocSet_isSome _ _ _ _
              (assocGet_assocSet_isSome _ _ _ _ hp))
    rcases h with h | ⟨f, hf, hfk⟩
    · rcases hstep with h2 | h2
      · exact ih _ _ (Or.inl h2)
      · exact ih _ _ (Or.inl (h2 h))
    · rcases List.mem_cons.mp hf with rfl | hf2
      · refine ih _ _ (Or.inl ?_)
        subst hfk
        rcases arwProcessFile_results_shape env p st f with hs | ⟨tx, hs⟩
        · rw [hs, assocGet_assocSet_self]
          rfl
        · rw [hs, assocGet_assocSet_self]
          rfl
      · exact ih _ _ (Or.inr ⟨f, hf2, hfk⟩)

theorem arw_fold_all_notFound (env : ArwEnv) (p : String) (w : String)
    (hw : env.wallet = some w) (files : List ArwFile) :
    ∀ st : ArwState,
      (∀ f ∈ files, env.deploy f = .notFound) →
      (∀ f ∈ files, f.uuid ≠ "") →
      (files.foldl (arwProcessFile env p) st).events
        = st.events ++ files.bind (fun f =>
            [Ev.deployArkb f.name,
             .notify ("Failed to upload " ++ f.name ++ " to Arweave.")])
      ∧ (files.foldl (arwProcessFile env p) st).results
        = files.foldl (fun r f => assocSet r f.name none) st.results
      ∧ (files.foldl (arwProcessFile env p) st).index = st.index
      ∧ (files.foldl (arwProcessFile env p) st).fs = st.fs := by
  induction files with
  | nil =>
    intro st _ _
    simp
  | cons g gs ih =>
    intro st hd hu
    have hstep := arwProcessFile_deploy_notFound env p st g w hw
      (hu g (List.mem_cons_self _ _)) (hd g (List.mem_cons_self _ _))
    have ih2 := ih (arwProcessFile env p st g)
      (fun f hf => hd f (List.mem_cons_of_mem _ hf))
      (fun f hf => hu f (List.mem_cons_of_mem _ hf))
    simp only [List.foldl_cons] at *
    refine ⟨?_, ?_, ?_, ?_⟩
    · rw [ih2.1, hstep]
      simp [List.append_assoc, List.cons_bind]
    · rw [ih2.2.1, hstep]
    · rw [ih2.2.2.1, hstep]
    · rw [ih2.2.2.2, hstep]

theorem bind_fail_events_countP_deploy (files : List ArwFile) :
    (files.bind (fun f =>
      [Ev.deployArkb f.name,
       Ev.notify ("Failed to upload " ++ f.name ++ " to Arweave.")])).countP
        isDeployEv = files.length := by
  induction files with
  | nil => rfl
  | cons g gs ih =>
    simp only [List.cons_bind, List.countP_append, ih]
    simp [List.countP_cons, isDeployEv]
    omega

theorem foldl_assocSet_none_values {γ : Type} (name : γ → String)
    (files : List γ) :
    ∀ res : List (String × Option String), (∀ r ∈ res, r.2 = none) →
      ∀ r ∈ files.foldl (fun acc f => assocSet acc (name f) none) res,
        r.2 = none := by
  induction files with
  | nil =>
    intro res h r hr
    exact h r hr
  | cons g gs ih =>
    intro res h r hr
    refine ih (assocSet res (name g) none) ?_ r hr
    intro r2 hr2
    rcases mem_assocSet res (name g) none r2 hr2 with h2 | h2
    · exact h r2 h2
    · rw [h2]

theorem post_to_atproto_cli_notFound (userText name : String)
    (calls : BskyCalls) (hut : userText ≠ "") (hv : calls.version = .notFound) :
    post_to_atproto true userText name calls
      = (none, [.notify ("Cannot post: " ++ bskyInstallGuide)]) := by
  simp [post_to_atproto, hut, check_bsky_cli_installed, hv]

theorem atpProcessFile_cli_notFound (env : AtpEnv) (p userText : String)
    (st : AtpState) (f : AtpFile) (hcreds : env.credsOk = true)
    (hut : userText ≠ "") (hv : (env.calls f).version = .notFound) :
    atpProcessFile env p userText st f
      = { st with
            results := assocSet st.results f.name none
            events := st.events
              ++ [.notify ("Cannot post: " ++ bskyInstallGuide),
                  .notify ("Failed to post " ++ f.name
                    ++ " to AT Protocol.")] } := by
  simp [atpProcessFile, hcreds,
    post_to_atproto_cli_notFound userText f.name _ hut hv]

theorem atp_fold_cli_notFound (env : AtpEnv) (p userText : String)
    (hcreds : env.credsOk = true) (hut : userText ≠ "")
    (files : List AtpFile) :
    ∀ st : AtpState,
      (∀ f ∈ files, (env.calls f).version = .notFound) →
      (files.foldl (atpProcessFile env p userText) st).events
        = st.events ++ files.bind (fun f =>
            [Ev.notify ("Cannot post: " ++ bskyInstallGuide),
             .notify ("Failed to post " ++ f.name ++ " to AT Protocol.")])
      ∧ (files.foldl (atpProcessFile env p userText) st).results
        = files.foldl (fun r f => assocSet r f.name none) st.results
      ∧ (files.foldl (atpProcessFile env p userText) st).index = st.index
      ∧ (files.foldl (atpProcessFile env p userText) st).fs = st.fs := by
  induction files with
  | nil =>
    intro st _
    simp
  | cons g gs ih =>
    intro st hv
    have hstep := atpProcessFile_cli_notFound env p userText st g hcreds hut
      (hv g (List.mem_cons_self _ _))
    have ih2 := ih (atpProcessFile env p userText st g)
      (fun f hf => hv f (List.mem_cons_of_mem _ hf))
    simp only [List.foldl_cons] at *
    refine ⟨?_, ?_, ?_, ?_⟩
    · rw [ih2.1, hstep]
      simp [List.append_assoc, List.cons_bind]
    · rw [ih2.2.1, hstep]
    · rw [ih2.2.2.1, hstep]
    · rw [ih2.2.2.2, hstep]

theorem bind_atp_fail_countP_bskyPost (files : List AtpFile) :
    (files.bind (fun f =>
      [Ev.notify ("Cannot post: " ++ bskyInstallGuide),
       Ev.notify ("Failed to post " ++ f.name
         ++ " to AT Protocol.")])).countP isBskyPostEv = 0 := by
  induction files with
  | nil => rfl
  | cons g gs ih =>
    simp only [List.cons_bind, List.countP_append, ih]
    simp [List.countP_cons, isBskyPostEv]

theorem post_to_atproto_success_spawns (credsOk : Bool)
    (userText name : String) (calls : BskyCalls) :
    (post_to_atproto credsOk userText name calls).1.isSome = true →
      Ev.bskyPost name ∈ (post_to_atproto credsOk userText name calls).2 := by
  unfold post_to_atproto
  repeat' split
  all_goals intro h
  all_goals
    first
    | (simp at h
       done)
    | (simp
       done)
    | (rcases Bool.eq_false_or_eq_true
          ((check_bsky_cli_installed calls.version).1) with hcc | hcc <;>
        simp_all [hcc] <;>
        (repeat' split) <;>
        simp)

theorem atpProcessFile_no_uuid_success (env : AtpEnv) (p userText : String)
    (st : AtpState) (f : AtpFile) (url : String) (evs : List Ev)
    (hu : f.uuid = "")
    (hpost : post_to_atproto env.credsOk userText f.name (env.calls f)
      = (some url, evs)) :
    atpProcessFile env p userText st f
      = { st with
            results := assocSet (assocSet st.results f.name none) f.name
              (some url)
            events := st.events ++ evs
              ++ [.notify ("Posted " ++ f.name ++ " to AT Protocol")] } := by
  simp [atpProcessFile, hpost, hu, List.append_assoc]

/-- Counterexample to claim C7 as stated: a file whose metadata lacks an
identifier is still posted by the AT Protocol orchestrator — the `bsky
post` subprocess is spawned, the post succeeds and is reported as a
success (no error notification), and only the index record is skipped. -/
theorem claim7_atproto_no_uuid_counterexample :
    demoNoUuidFile.uuid = ""
    ∧ demoAtpRun.2.2.countP isBskyPostEv = 1
    ∧ demoAtpRun.1
      = [("n.md", some "https://bsky.app/profile/me.bsky.social/post/abc123")]
    ∧ demoAtpRun.2.2.countP
        (fun e => e == Ev.notify "Failed to post n.md to AT Protocol.") = 0
    ∧ demoAtpRun.2.1 "data/atproto_posts.json" = none := by
  refine ⟨rfl, by decide, by decide, by decide, rfl⟩

/-- Claim C7, amended: only the content-addressed orchestrator enforces the
identifier preflight — a file without an identifier is skipped with an
error notification, no publish subprocess is spawned and no index record
is created, while the batch still records an outcome for every queued
file.  The social orchestrator posts a file without an identifier anyway
(the `bsky post` subprocess is spawned whenever a post succeeds) and only
skips the index record, reporting success rather than an error. -/
theorem claim7_preflight_amended :
    (∀ (env : ArwEnv) (p : String) (st : ArwState) (f : ArwFile),
      f.uuid = "" →
      (arwProcessFile env p st f).results = assocSet st.results f.name none
      ∧ (arwProcessFile env p st f).index = st.index
      ∧ (arwProcessFile env p st f).fs = st.fs
      ∧ (arwProcessFile env p st f).events = st.events
          ++ [.notify ("Skipping " ++ f.name
              ++ ": No UUID found in frontmatter.")])
    ∧ (∀ (env : ArwEnv) (files : List ArwFile) (fs0 : FS) (p w : String),
        env.wallet = some w → ∀ f ∈ files,
        (assocGet (upload_files_to_arweave env files fs0 p).1 f.name).isSome
          = true)
    ∧ (∀ (env : AtpEnv) (p userText : String) (st : AtpState) (f : AtpFile)
        (url : String) (evs : List Ev), f.uuid = "" →
        post_to_atproto env.credsOk userText f.name (env.calls f)
          = (some url, evs) →
        (atpProcessFile env p userText st f).results
          = assocSet (assocSet st.results f.name none) f.name (some url)
        ∧ (atpProcessFile env p userText st f).index = st.index
        ∧ (atpProcessFile env p userText st f).fs = st.fs
        ∧ (atpProcessFile env p userText st f).events
          = st.events ++ evs
              ++ [.notify ("Posted " ++ f.name ++ " to AT Protocol")])
    ∧ (∀ (credsOk : Bool) (userText name : String) (calls : BskyCalls),
        (post_to_atproto credsOk userText name calls).1.isSome = true →
        Ev.bskyPost name ∈ (post_to_atproto credsOk userText name calls).2) := by
  refine ⟨?_, ?_, ?_, ?_⟩
  · intro env p st f h
    rw [arwProcessFile_no_uuid env p st f h]
    exact ⟨rfl, rfl, rfl, rfl⟩
  · intro env files fs0 p w hw f hf
    have hne : files.isEmpty = false := by
      cases files with
      | nil => simp at hf
      | cons a l => rfl
    unfold upload_files_to_arweave
    simp only [hne, Bool.false_eq_true, if_false, hw]
    exact arw_fold_key_isSome env p files _ f.name (Or.inr ⟨f, hf, rfl⟩)
  · intro env p userText st f url evs hu hpost
    rw [atpProcessFile_no_uuid_success env p userText st f url evs hu hpost]
    exact ⟨rfl, rfl, rfl, rfl⟩
  · exact post_to_atproto_success_spawns

/-- Witness for C7 at concrete batches. -/
theorem claim7_witness :
    (arwProcessFile demoArkbMissingEnv "data/archive.json"
      ⟨[], [], fun _ => none, 0, []⟩
      ⟨"x.md", "", "T", ""⟩).events
      = [.notify "Skipping x.md: No UUID found in frontmatter."]
    ∧ (assocGet (upload_files_to_arweave demoArkbMissingEnv demoArwFiles
        (fun _ => none) "data/archive.json").1 "a.md").isSome = true
    ∧ Ev.bskyPost "n.md" ∈ (post_to_atproto true "hello" "n.md"
        demoCallsOk).2 := by
  refine ⟨?_, ?_, ?_⟩
  · have h := claim7_preflight_amended.1 demoArkbMissingEnv "data/archive.json"
      ⟨[], [], fun _ => none, 0, []⟩ ⟨"x.md", "", "T", ""⟩ rfl
    rw [h.2.2.2]
    rfl
  · exact claim7_preflight_amended.2.1 demoArkbMissingEnv demoArwFiles
      (fun _ => none) "data/archive.json" "w" rfl ⟨"a.md", "u1", "A", ""⟩
      (by simp [demoArwFiles])
  · exact claim7_preflight_amended.2.2.2 true "hello" "n.md" demoCallsOk
      (by decide)

/-- Counterexample to claim C8 as stated: with the `arkb` executable
missing, the Arweave batch driver does not abort — both files are still
attempted (two deploy spawns, each raising `FileNotFoundError`), the
condition is reported once per file rather than once per batch, and the
batch runs to completion with per-file failures. -/
theorem claim8_missing_cli_counterexample :
    demoArwRun.2.2.countP isDeployEv = 2
    ∧ demoArwRun.2.2.countP
        (fun e => e == Ev.notify "Failed to upload a.md to Arweave.") = 1
    ∧ demoArwRun.2.2.countP
        (fun e => e == Ev.notify "Failed to upload b.md to Arweave.") = 1
    ∧ demoArwRun.1 = [("a.md", none), ("b.md", none)] := by
  refine ⟨by decide, by decide, by decide, by decide⟩

/-- Claim C8, amended: a missing publishing CLI does not abort the batch
for either network — every queued file is still processed and fails
individually.  For the content-addressed network each file spawns its own
deploy attempt and gets its own failure notification; for the social
network the per-file CLI check fails before any post subprocess is spawned
and each file gets its own pair of failure notifications.  All results
are `none` in both cases. -/
theorem claim8_missing_cli_amended :
    (∀ (env : ArwEnv) (files : List ArwFile) (fs0 : FS) (p w : String),
      env.wallet = some w →
      (∀ f ∈ files, env.deploy f = .notFound) →
      (∀ f ∈ files, f.uuid ≠ "") →
      (upload_files_to_arweave env files fs0 p).2.2.countP isDeployEv
        = files.length
      ∧ (∀ r ∈ (upload_files_to_arweave env files fs0 p).1, r.2 = none)
      ∧ (∀ f ∈ files,
          Ev.notify ("Failed to upload " ++ f.name ++ " to Arweave.")
            ∈ (upload_files_to_arweave env files fs0 p).2.2))
    ∧ (∀ (env : AtpEnv) (files : List AtpFile) (fs0 : FS) (p userText : String),
        env.credsOk = true → userText ≠ "" →
        (∀ f ∈ files, (env.calls f).version = .notFound) →
        (post_files_to_atproto env files fs0 p userText).2.2.countP
          isBskyPostEv = 0
        ∧ (∀ r ∈ (post_files_to_atproto env files fs0 p userText).1,
            r.2 = none)
        ∧ (∀ f ∈ files,
            Ev.notify ("Cannot post: " ++ bskyInstallGuide)
              ∈ (post_files_to_atproto env files fs0 p userText).2.2
            ∧ Ev.notify ("Failed to post " ++ f.name ++ " to AT Protocol.")
              ∈ (post_files_to_atproto env files fs0 p userText).2.2)) := by
  constructor
  · intro env files fs0 p w hw hd hu
    cases hfe : files.isEmpty with
    | true =>
      have : files = [] := by
        cases files with
        | nil => rfl
        | cons a l => simp at hfe
      subst this
      refine ⟨by simp [upload_files_to_arweave], ?_, ?_⟩
      · intro r hr
        simp [upload_files_to_arweave] at hr
      · intro f hf
        simp at hf
    | false =>
      unfold upload_files_to_arweave
      simp only [hfe, Bool.false_eq_true, if_false, hw]
      have hfold := arw_fold_all_notFound env p w hw files
        { results := [], index := load_arweave_index fs0 p, fs := fs0,
          saveCount := 0,
          events := [.notify ("Starting Arweave upload for "
            ++ toString files.length ++ " files...")] } hd hu
      refine ⟨?_, ?_, ?_⟩
      · rw [hfold.1]
        simp only [List.countP_append]
        rw [bind_fail_events_countP_deploy]
        simp [List.countP_cons, isDeployEv]
      · intro r hr
        rw [hfold.2.1] at hr
        exact foldl_assocSet_none_values ArwFile.name files [] (by simp) r hr
      · intro f hf
        rw [hfold.1]
        refine List.mem_append_left _ (List.mem_append_right _ ?_)
        refine List.mem_bind.mpr ⟨f, hf, ?_⟩
        simp
  · intro env files fs0 p userText hcreds hut hv
    cases hfe : files.isEmpty with
    | true =>
      have : files = [] := by
        cases files with
        | nil => rfl
        | cons a l => simp at hfe
      subst this
      refine ⟨by simp [post_files_to_atproto], ?_, ?_⟩
      · intro r hr
        simp [post_files_to_atproto] at hr
      · intro f hf
        simp at hf
    | false =>
      unfold post_files_to_atproto
      simp only [hfe, Bool.false_eq_true, if_false, hcreds, not_true,
        if_false]
      have hfold := atp_fold_cli_notFound env p userText hcreds hut files
        { results := [], index := load_atproto_posts_index fs0 p, fs := fs0,
          saveCount := 0,
          events := [.notify ("Starting AT Protocol posting for "
            ++ toString files.length ++ " files...")] } hv
      refine ⟨?_, ?_, ?_⟩
      · rw [hfold.1]
        simp only [List.countP_append]
        rw [bind_atp_fail_countP_bskyPost]
        simp [List.countP_cons, isBskyPostEv]
      · intro r hr
        rw [hfold.2.1] at hr
        exact foldl_assocSet_none_values AtpFile.name files [] (by simp) r hr
      · intro f hf
        rw [hfold.1]
        constructor
        · refine List.mem_append_left _ (List.mem_append_right _ ?_)
          refine List.mem_bind.mpr ⟨f, hf, ?_⟩
          simp
        · refine List.mem_append_left _ (List.mem_append_right _ ?_)
          refine List.mem_bind.mpr ⟨f, hf, ?_⟩
          simp

/-- Witness for C8 at the concrete two-file batch with `arkb` missing. -/
theorem claim8_witness :
    (upload_files_to_arweave demoArkbMissingEnv demoArwFiles (fun _ => none)
      "data/archive.json").2.2.countP isDeployEv = demoArwFiles.length
    ∧ Ev.notify "Failed to upload b.md to Arweave."
      ∈ (upload_files_to_arweave demoArkbMissingEnv demoArwFiles
          (fun _ => none) "data/archive.json").2.2 := by
  have h := claim8_missing_cli_amended.1 demoArkbMissingEnv demoArwFiles
    (fun _ => none) "data/archive.json" "w" rfl (fun f _ => rfl)
    (by
      intro f hf
      simp only [demoArwFiles, List.mem_cons, List.not_mem_nil, or_false]
        at hf
      rcases hf with rfl | rfl <;> decide)
  exact ⟨h.1, h.2.2 ⟨"b.md", "u2", "B", ""⟩ (by simp [demoArwFiles])⟩

end Meridian
